import Mathlib

/-! # Verification of `script.js`

A shallow embedding of the landing-page script: the rate limiters (`debounce`,
`throttle`), the countdown timer, the scroll controller, the scroll-depth analytics
and the FAQ accordion, together with the properties proved about them.

Conventions of the embedding:
* time is a natural number of milliseconds and a timer fires exactly when it is due;
  the delay passed to `setTimeout` goes through the 32-bit conversion of the platform
  (`timerDelay`); when a timeout and a call fall on the same instant, which of the two
  runs first is chosen by the scheduler, separately for every call;
* `setTimeout` / `setInterval` registrations live in an explicit registry (a list),
  handles are natural numbers handed out by a counter, and `clearTimeout` /
  `clearInterval` remove the registration with the given handle;
* a JavaScript variable that may be `undefined` is an `Option`;
* closures are represented by the data they capture.
-/

namespace Script

/-! ## Timers shared by the rate limiters -/

/-- A pending `setTimeout` registration: its handle, the time at which it is due, and the
data captured by its callback. -/
structure Timeout (κ : Type) where
  id : Nat
  due : Nat
  callback : κ
  deriving DecidableEq, Repr

/-- The delay the platform really uses for `setTimeout(callback, ms)`: the argument is
converted to a 32-bit signed integer (reduced modulo `2^32`, the upper half read as
negative) and a negative delay counts as `0`. A delay below `2^31` is used as it is; a
delay of `2^31` up to `2^32 - 1` milliseconds makes the timeout due at once. -/
def timerDelay (ms : Nat) : Nat :=
  let m := ms % 4294967296
  if m < 2147483648 then m else 0

/-- The platform call `clearTimeout(handle)`: removes the registration with that handle;
`clearTimeout(undefined)` and clearing a handle that already fired do nothing. -/
def clearTimeout {κ : Type} (handle : Option Nat) (pending : List (Timeout κ)) :
    List (Timeout κ) :=
  match handle with
  | none => pending
  | some i => pending.filter (fun t => t.id != i)

/-- The registration that fires next: the earliest due one, the older one on a tie. -/
def earliest {κ : Type} : List (Timeout κ) → Option (Timeout κ)
  | [] => none
  | t :: ts =>
    match earliest ts with
    | none => some t
    | some u => if u.due < t.due then some u else some t

/-- One call of a wrapped function: the instant `time` at which it is made, the way the
scheduler resolves a tie for this very call (`timersFirst`: a timeout due at exactly
`time` has already run when the call is made), and the arguments of the call. Every call
of a run carries its own resolution, so every interleaving of calls and timeouts is a
run. -/
structure Call (α : Type) where
  time : Nat
  timersFirst : Bool
  args : α
  deriving DecidableEq, Repr

/-- Whether a timer due at `due` has fired before an event handled at time `now`.
A timer due strictly earlier has; for a timer due exactly at `now` the order is the
scheduler's choice, recorded in `timersFirst`. -/
def readyBefore (timersFirst : Bool) (now due : Nat) : Bool :=
  decide (due < now) || (timersFirst && decide (due = now))

/-- Whether a timer due at `due` has fired once the clock has reached `t`. -/
def readyBy (t due : Nat) : Bool := decide (due ≤ t)

/-! ## `debounce` (script.js 2-12) -/

/-- State of one debounced function: the closure variable `timeout`, the handle counter
and registry of the platform, and the log of executions of `func` as (time, arguments). -/
structure DebounceState (α : Type) where
  timeout : Option Nat
  nextId : Nat
  pending : List (Timeout α)
  executed : List (Nat × α)

/-- A fresh debounced function: `let timeout;` is `undefined`, nothing is scheduled. -/
def DebounceState.initial {α : Type} : DebounceState α := ⟨none, 1, [], []⟩

/-- The callback `later` of a call made with `args`, running at time `now`
(script.js 5-8). -/
def later {α : Type} (now : Nat) (args : α) (s : DebounceState α) : DebounceState α :=
  let s1 := { s with pending := clearTimeout s.timeout s.pending }
  { s1 with executed := s1.executed ++ [(now, args)] }

/-- One call `executedFunction(...args)` at time `now` (script.js 4-11): cancel the
pending timeout, then `timeout = setTimeout(later, wait)`, which the platform makes due
`timerDelay wait` milliseconds from now. -/
def executedFunction {α : Type} (wait now : Nat) (args : α) (s : DebounceState α) :
    DebounceState α :=
  let s1 := { s with pending := clearTimeout s.timeout s.pending }
  { s1 with
    timeout := some s1.nextId
    nextId := s1.nextId + 1
    pending := s1.pending ++ [⟨s1.nextId, now + timerDelay wait, args⟩] }

/-- The event loop firing due timeouts of a debounced function, earliest first, at most
`fuel` of them: a timeout that fires leaves the registry and its callback runs at its
due time. -/
def fireDebounce {α : Type} (ready : Nat → Bool) : Nat → DebounceState α → DebounceState α
  | 0, s => s
  | fuel + 1, s =>
    match earliest s.pending with
    | none => s
    | some t =>
      if ready t.due then
        fireDebounce ready fuel
          (later t.due t.callback { s with pending := s.pending.filter (fun u => u.id != t.id) })
      else
        s

/-- The call `c` of the debounced function, after the timeouts that fire before it. -/
def debounceCall {α : Type} (wait : Nat) (s : DebounceState α) (c : Call α) :
    DebounceState α :=
  executedFunction wait c.time c.args
    (fireDebounce (readyBefore c.timersFirst c.time) s.pending.length s)

/-- The calls `calls` made in order on a fresh debounced function, observed when the clock
has reached `t` with no further call. -/
def debounceRun {α : Type} (wait : Nat) (calls : List (Call α)) (t : Nat) :
    DebounceState α :=
  let s := calls.foldl (debounceCall wait) DebounceState.initial
  fireDebounce (readyBy t) s.pending.length s

/-! ## `throttle` (script.js 14-25) -/

/-- State of one throttled function: the closure variable `inThrottle` (`undefined`
counts as `false`), the platform registry, and the log of executions of `func`. -/
structure ThrottleState (α : Type) where
  inThrottle : Bool
  nextId : Nat
  pending : List (Timeout Unit)
  executed : List (Nat × α)

/-- A fresh throttled function. -/
def ThrottleState.initial {α : Type} : ThrottleState α := ⟨false, 1, [], []⟩

/-- One call of the throttled function at time `now` (script.js 16-24); the release
timeout `setTimeout(() => inThrottle = false, limit)` is due `timerDelay limit`
milliseconds from now. -/
def throttled {α : Type} (limit now : Nat) (args : α) (s : ThrottleState α) :
    ThrottleState α :=
  if !s.inThrottle then
    let s1 := { s with executed := s.executed ++ [(now, args)] }
    let s2 := { s1 with inThrottle := true }
    { s2 with
      nextId := s2.nextId + 1
      pending := s2.pending ++ [⟨s2.nextId, now + timerDelay limit, ()⟩] }
  else
    s

/-- The timeout callback `() => inThrottle = false`. -/
def releaseThrottle {α : Type} (s : ThrottleState α) : ThrottleState α :=
  { s with inThrottle := false }

/-- The event loop firing due timeouts of a throttled function, at most `fuel` of them. -/
def fireThrottle {α : Type} (ready : Nat → Bool) : Nat → ThrottleState α → ThrottleState α
  | 0, s => s
  | fuel + 1, s =>
    match earliest s.pending with
    | none => s
    | some t =>
      if ready t.due then
        fireThrottle ready fuel
          (releaseThrottle { s with pending := s.pending.filter (fun u => u.id != t.id) })
      else
        s

/-- The call `c` of the throttled function, after the timeouts that fire before it. -/
def throttleCall {α : Type} (limit : Nat) (s : ThrottleState α) (c : Call α) :
    ThrottleState α :=
  throttled limit c.time c.args
    (fireThrottle (readyBefore c.timersFirst c.time) s.pending.length s)

/-- The calls `calls` made in order on a fresh throttled function, followed by every
timeout still pending. -/
def throttleRun {α : Type} (limit : Nat) (calls : List (Call α)) : ThrottleState α :=
  let s := calls.foldl (throttleCall limit) ThrottleState.initial
  fireThrottle (fun _ => true) s.pending.length s

/-- The throttle of the specification, as a function from the calls to the executions of
`func`, given the time `last` of the latest executed call: the first call executes; a call
less than `limit` after the latest executed call is dropped; a call more than `limit`
after it executes and becomes the latest executed call. For a call exactly `limit` after
the latest executed call the specification leaves the outcome to the scheduler: the call
executes when the window had already been released for it (`timersFirst`), and is dropped
otherwise. -/
def throttleSpec {α : Type} (limit : Nat) : Option Nat → List (Call α) → List (Nat × α)
  | _, [] => []
  | none, c :: cs => (c.time, c.args) :: throttleSpec limit (some c.time) cs
  | some last, c :: cs =>
    if c.time < last + limit ∨ (c.time = last + limit ∧ c.timersFirst = false) then
      throttleSpec limit (some last) cs
    else
      (c.time, c.args) :: throttleSpec limit (some c.time) cs

/-! ## Countdown timer (`initCountdown`, script.js 27-91) -/

/-- A display element of the countdown: its text and whether it carries the class
`blinking`. -/
structure Display where
  textContent : String
  blinking : Bool
  deriving DecidableEq, Repr

/-- The six element ids looked up by `initCountdown`. -/
inductive ElementId where
  | hoursDesktop | minutesDesktop | secondsDesktop
  | hoursMobile | minutesMobile | secondsMobile
  deriving DecidableEq, Repr

/-- The part of the document the countdown touches: each of the six elements is present
(`some`) or absent (`none`, what `getElementById` reports as `null`). -/
structure Document where
  hoursDesktop : Option Display
  minutesDesktop : Option Display
  secondsDesktop : Option Display
  hoursMobile : Option Display
  minutesMobile : Option Display
  secondsMobile : Option Display
  deriving DecidableEq, Repr

/-- The call `document.getElementById(id)`. -/
def Document.getElementById (d : Document) : ElementId → Option Display
  | .hoursDesktop => d.hoursDesktop
  | .minutesDesktop => d.minutesDesktop
  | .secondsDesktop => d.secondsDesktop
  | .hoursMobile => d.hoursMobile
  | .minutesMobile => d.minutesMobile
  | .secondsMobile => d.secondsMobile

/-- Applies `f` to the element `id` of the document, when present. -/
def Document.modify (d : Document) (id : ElementId) (f : Display → Display) : Document :=
  match id with
  | .hoursDesktop => { d with hoursDesktop := d.hoursDesktop.map f }
  | .minutesDesktop => { d with minutesDesktop := d.minutesDesktop.map f }
  | .secondsDesktop => { d with secondsDesktop := d.secondsDesktop.map f }
  | .hoursMobile => { d with hoursMobile := d.hoursMobile.map f }
  | .minutesMobile => { d with minutesMobile := d.minutesMobile.map f }
  | .secondsMobile => { d with secondsMobile := d.secondsMobile.map f }

/-- The grouped element lists `timerElements` (script.js 44-48), after `.filter(Boolean)`. -/
structure TimerElements where
  hours : List ElementId
  minutes : List ElementId
  seconds : List ElementId
  deriving DecidableEq, Repr

/-- The variables captured by the closure `updateTimer` of one run of `initCountdown`. -/
structure Scope where
  timerElements : TimerElements
  totalSeconds : Int
  deriving DecidableEq, Repr

/-- An active `setInterval` registration: its handle and the run of `initCountdown` whose
`updateTimer` it calls. -/
structure Interval where
  id : Nat
  scope : Nat
  deriving DecidableEq, Repr

/-- State of the countdown: the document, the global `countdownInterval`, the handle
counter and interval registry of the platform, the closures created so far, and
`maxActive`, a ghost record of the largest number of registrations ever active together. -/
structure CountdownState where
  document : Document
  countdownInterval : Option Nat
  nextId : Nat
  intervals : List Interval
  scopes : List Scope
  maxActive : Nat
  deriving DecidableEq, Repr

/-- The page before the script has run: nothing registered, handles start at 1. -/
def CountdownState.initial (d : Document) : CountdownState :=
  { document := d, countdownInterval := none, nextId := 1, intervals := [], scopes := [],
    maxActive := 0 }

/-- Truthiness of a handle variable: `undefined` and `0` are falsy. -/
def truthy : Option Nat → Bool
  | none => false
  | some n => n != 0

/-- The platform call `clearInterval(handle)`. -/
def clearInterval (handle : Option Nat) (s : CountdownState) : CountdownState :=
  match handle with
  | none => s
  | some i => { s with intervals := s.intervals.filter (fun iv => iv.id != i) }

/-- The statement `countdownInterval = setInterval(updateTimer, 1000)` for the closure
`scope`. -/
def setInterval (scope : Nat) (s : CountdownState) : CountdownState :=
  { s with
    countdownInterval := some s.nextId
    nextId := s.nextId + 1
    intervals := s.intervals ++ [⟨s.nextId, scope⟩]
    maxActive := max s.maxActive (s.intervals.length + 1) }

/-- The string method `padStart(targetLength, c)`. -/
def padStart (s : String) (targetLength : Nat) (c : Char) : String :=
  String.mk (List.replicate (targetLength - s.length) c) ++ s

/-- The rendering `n.toString().padStart(2, '0')` of an integer. -/
def pad2 (n : Int) : String := padStart (toString n) 2 '0'

/-- A `forEach` over element ids applying `f` to each element. -/
def forEachElement (ids : List ElementId) (f : Display → Display) (d : Document) : Document :=
  ids.foldl (fun acc id => acc.modify id f) d

/-- The rendering part of `updateTimer` (script.js 56-72) for the captured variables `sc`. -/
def render (sc : Scope) (d : Document) : Document :=
  let hours := Int.fdiv sc.totalSeconds 3600
  let minutes := Int.fdiv (Int.tmod sc.totalSeconds 3600) 60
  let seconds := Int.tmod sc.totalSeconds 60
  let d1 := forEachElement sc.timerElements.hours
    (fun el => { el with textContent := pad2 hours }) d
  let d2 := forEachElement sc.timerElements.minutes
    (fun el => { el with textContent := pad2 minutes }) d1
  let d3 := forEachElement sc.timerElements.seconds
    (fun el => { el with textContent := pad2 seconds }) d2
  let allElements :=
    sc.timerElements.hours ++ sc.timerElements.minutes ++ sc.timerElements.seconds
  if sc.totalSeconds ≤ 300 then
    forEachElement allElements (fun el => { el with blinking := true }) d3
  else
    forEachElement allElements (fun el => { el with blinking := false }) d3

/-- The element lookup and grouping of `initCountdown` (script.js 32-48). -/
def lookupTimerElements (d : Document) : TimerElements :=
  let present := fun id => (d.getElementById id).isSome
  { hours := [ElementId.hoursDesktop, ElementId.hoursMobile].filter present
    minutes := [ElementId.minutesDesktop, ElementId.minutesMobile].filter present
    seconds := [ElementId.secondsDesktop, ElementId.secondsMobile].filter present }

/-- Termination measure of `updateTimer`: it re-enters `initCountdown` only when the
counter of its closure is negative. -/
def updateTimerMeasure (k : Nat) (s : CountdownState) : Nat :=
  match s.scopes[k]? with
  | none => 0
  | some sc => if sc.totalSeconds < 0 then 2 else 0

set_option linter.unusedVariables false in
mutual

/-- The function `initCountdown` (script.js 30-91). -/
def initCountdown (s : CountdownState) : CountdownState :=
  let timerElements := lookupTimerElements s.document
  if timerElements.hours.length = 0 then
    s
  else
    let k := s.scopes.length
    let s1 := { s with scopes := s.scopes ++ [⟨timerElements, 35 * 60 + 59⟩] }
    let s2 := if truthy s1.countdownInterval then clearInterval s1.countdownInterval s1 else s1
    setInterval k (updateTimer k s2)
termination_by 1
decreasing_by
  simp_wf
  split
  · cases s.countdownInterval <;> simp [updateTimerMeasure, clearInterval]
  · simp [updateTimerMeasure]

/-- The closure `updateTimer` of the run `k` of `initCountdown` (script.js 55-82). -/
def updateTimer (k : Nat) (s : CountdownState) : CountdownState :=
  match h : s.scopes[k]? with
  | none => s
  | some sc =>
    let s1 := { s with document := render sc s.document }
    if hneg : sc.totalSeconds < 0 then
      initCountdown (clearInterval s1.countdownInterval s1)
    else
      { s1 with scopes := s1.scopes.set k { sc with totalSeconds := sc.totalSeconds - 1 } }
termination_by updateTimerMeasure k s
decreasing_by
  simp_wf
  simp [updateTimerMeasure, h, hneg]

end

/-- One elapsed period of 1000 ms: every registration active at its start fires once, in
registration order, unless it has been cleared in the meantime. -/
def intervalTick (s : CountdownState) : CountdownState :=
  s.intervals.foldl
    (fun acc iv => if acc.intervals.any (fun jv => jv.id == iv.id) then
      updateTimer iv.scope acc else acc) s

/-- An event of the countdown: a call of `initCountdown`, or one elapsed period. -/
inductive CountdownEvent where
  | start
  | tick
  deriving DecidableEq, Repr

/-- The reaction to one event. -/
def countdownStep (s : CountdownState) : CountdownEvent → CountdownState
  | .start => initCountdown s
  | .tick => intervalTick s

/-- The counters `totalSeconds` of the running countdowns: one per active registration. -/
def remaining (s : CountdownState) : List Int :=
  s.intervals.map (fun iv => match s.scopes[iv.scope]? with
    | none => 0
    | some sc => sc.totalSeconds)

/-- Number of runs of `initCountdown` that got past the display check. -/
def activations (s : CountdownState) : Nat := s.scopes.length

/-- The countdown is running on a single registration: handle `id`, non-zero, stored in
`countdownInterval`, ticking the closure `k` whose counter is `ts`; at least one hours
display is present, the next handle is non-zero, and no two registrations were ever
active together. -/
def Running (s : CountdownState) (id k : Nat) (ts : Int) : Prop :=
  s.intervals = [⟨id, k⟩] ∧ s.countdownInterval = some id ∧ id ≠ 0 ∧ s.nextId ≠ 0 ∧
  (∃ te, s.scopes[k]? = some ⟨te, ts⟩) ∧
  (lookupTimerElements s.document).hours.length ≠ 0 ∧ s.maxActive ≤ 1

/-- The displays found by `initCountdown` include an hours display. -/
def hasHoursDisplay (d : Document) : Prop :=
  d.hoursDesktop ≠ none ∨ d.hoursMobile ≠ none

instance (d : Document) : Decidable (hasHoursDisplay d) := by
  unfold hasHoursDisplay; infer_instance

/-- The state after `n` elapsed periods of 1000 ms. -/
def ticks : Nat → CountdownState → CountdownState
  | 0, s => s
  | n + 1, s => intervalTick (ticks n s)

/-- A document holding all six display elements, empty and not blinking. -/
def fullDocument : Document :=
  { hoursDesktop := some ⟨"", false⟩, minutesDesktop := some ⟨"", false⟩,
    secondsDesktop := some ⟨"", false⟩, hoursMobile := some ⟨"", false⟩,
    minutesMobile := some ⟨"", false⟩, secondsMobile := some ⟨"", false⟩ }

/-- A document holding a minutes display only. -/
def minutesOnlyDocument : Document :=
  { hoursDesktop := none, minutesDesktop := some ⟨"", false⟩, secondsDesktop := none,
    hoursMobile := none, minutesMobile := none, secondsMobile := none }

/-- Whether any of the six display elements exists. -/
def hasAnyDisplay (d : Document) : Prop :=
  d.hoursDesktop ≠ none ∨ d.minutesDesktop ≠ none ∨ d.secondsDesktop ≠ none ∨
  d.hoursMobile ≠ none ∨ d.minutesMobile ≠ none ∨ d.secondsMobile ≠ none

instance (d : Document) : Decidable (hasAnyDisplay d) := by
  unfold hasAnyDisplay; infer_instance

/-! ## Scroll controller (`initScrollFunctionalities`, script.js 113-183) -/

/-- What a pending banner timeout does when it expires: the callback armed by
`handleScroll` hides every banner, the one armed by the `mouseleave` listener of a banner
hides that banner. -/
inductive HideCallback where
  | hideAll
  | hideOne (banner : Nat)
  deriving DecidableEq, Repr

/-- A pending `setTimeout(callback, 3000)` of the scroll controller. -/
structure HideTimeout where
  id : Nat
  callback : HideCallback
  deriving DecidableEq, Repr

/-- State of the scroll controller: the `visible` class of the back-to-top control when
it exists, the `visible` class of each banner in `allTimers`, the closure variables
`scrollStopTimer` and `isMouseOverTimer`, and the handle counter and registry of the
platform. -/
structure ScrollState where
  scrollToTop : Option Bool
  allTimers : List Bool
  scrollStopTimer : Option Nat
  isMouseOverTimer : Bool
  nextId : Nat
  pending : List HideTimeout
  deriving DecidableEq, Repr

/-- The controller right after `initScrollFunctionalities`, with `banners` banners. -/
def ScrollState.initial (scrollToTop : Option Bool) (banners : Nat) : ScrollState :=
  { scrollToTop := scrollToTop, allTimers := List.replicate banners false,
    scrollStopTimer := none, isMouseOverTimer := false, nextId := 1, pending := [] }

/-- The statement `clearTimeout(scrollStopTimer)`. -/
def clearScrollStopTimer (s : ScrollState) : ScrollState :=
  match s.scrollStopTimer with
  | none => s
  | some i => { s with pending := s.pending.filter (fun t => t.id != i) }

/-- The statement `scrollStopTimer = setTimeout(callback, 3000)`. -/
def armScrollStopTimer (callback : HideCallback) (s : ScrollState) : ScrollState :=
  { s with
    scrollStopTimer := some s.nextId
    nextId := s.nextId + 1
    pending := s.pending ++ [⟨s.nextId, callback⟩] }

/-- The function `handleScroll` for the offset `scrollTop` (script.js 120-147). -/
def handleScroll (scrollTop : Int) (s : ScrollState) : ScrollState :=
  let s1 :=
    match s.scrollToTop with
    | some _ => { s with scrollToTop := some (decide (scrollTop > 500)) }
    | none => s
  let s2 := clearScrollStopTimer s1
  if scrollTop > 200 then
    let s3 := { s2 with allTimers := s2.allTimers.map (fun _ => true) }
    if !s3.isMouseOverTimer then
      armScrollStopTimer .hideAll s3
    else
      s3
  else
    { s2 with allTimers := s2.allTimers.map (fun _ => false) }

/-- The `mouseenter` listener of a banner (script.js 170-173). -/
def onMouseEnter (s : ScrollState) : ScrollState :=
  clearScrollStopTimer { s with isMouseOverTimer := true }

/-- The `mouseleave` listener of the banner `banner` (script.js 176-181). -/
def onMouseLeave (banner : Nat) (s : ScrollState) : ScrollState :=
  armScrollStopTimer (.hideOne banner) { s with isMouseOverTimer := false }

/-- The callback of an expired timeout. -/
def runHideCallback (s : ScrollState) : HideCallback → ScrollState
  | .hideAll => { s with allTimers := s.allTimers.map (fun _ => false) }
  | .hideOne banner => { s with allTimers := s.allTimers.set banner false }

/-- An event of the scroll controller: a scroll event let through by the throttle, with
the offset read by `handleScroll`; the pointer entering or leaving a banner; the expiry
of the pending timeout with a given handle. -/
inductive ScrollEvent where
  | scroll (pageYOffset : Int)
  | mouseenter (banner : Nat)
  | mouseleave (banner : Nat)
  | expire (handle : Nat)
  deriving DecidableEq, Repr

/-- The reaction to one event. Listeners exist only on the banners of `allTimers`; a
timeout that expires leaves the registry and its callback runs. -/
def scrollStep (s : ScrollState) : ScrollEvent → ScrollState
  | .scroll y => handleScroll y s
  | .mouseenter banner => if banner < s.allTimers.length then onMouseEnter s else s
  | .mouseleave banner => if banner < s.allTimers.length then onMouseLeave banner s else s
  | .expire handle =>
    match s.pending.find? (fun t => t.id == handle) with
    | none => s
    | some t => runHideCallback { s with pending := s.pending.filter (fun u => u.id != handle) }
        t.callback

/-- The event is not a pointer-leave. -/
def ScrollEvent.notLeave : ScrollEvent → Bool
  | .mouseleave _ => false
  | _ => true

/-- At most one timeout is pending, and it is the one `scrollStopTimer` refers to. -/
def SingleSlot (s : ScrollState) : Prop :=
  s.pending = [] ∨ ∃ t, s.pending = [t] ∧ s.scrollStopTimer = some t.id

/-! ## Analytics: scroll depth (`initAnalytics`, script.js 244-256) -/

/-- State of the scroll-depth tracker: the closure variable `maxScroll` and the
`percent` payloads of the `scroll_depth` events handed to `trackEvent`, oldest first. -/
structure AnalyticsState where
  maxScroll : Int
  events : List Int
  deriving DecidableEq, Repr

/-- Initial tracker state: `let maxScroll = 0`, nothing emitted yet. -/
def AnalyticsState.initial : AnalyticsState := ⟨0, []⟩

/-- The call `trackEvent('scroll_depth', { percent })`. -/
def trackEvent (s : AnalyticsState) (percent : Int) : AnalyticsState :=
  { s with events := s.events ++ [percent] }

/-- Body of the throttled scroll-depth handler for one computed sample `scrollPercent`
(script.js 247-255). JavaScript `%` is the truncated remainder, `Int.tmod`. -/
def trackScrollDepth (s : AnalyticsState) (scrollPercent : Int) : AnalyticsState :=
  if scrollPercent > s.maxScroll then
    let s1 : AnalyticsState := { s with maxScroll := scrollPercent }
    if Int.tmod s1.maxScroll 25 = 0 ∧ s1.maxScroll ≤ 100 then
      trackEvent s1 s1.maxScroll
    else
      s1
  else
    s

/-- The handler run on a sequence of samples, in order. -/
def trackScrollDepthAll (s : AnalyticsState) (samples : List Int) : AnalyticsState :=
  samples.foldl trackScrollDepth s

/-- The four milestones of the specification. -/
def milestones : List Int := [25, 50, 75, 100]

/-- Decides, for a running maximum `M` and the samples still to come, whether a sample
equal to `m` is processed while the running maximum is still below `m`. -/
def landsOn (m : Int) : Int → List Int → Bool
  | _, [] => false
  | M, x :: xs =>
    if x > M then (if x = m then true else landsOn m x xs) else landsOn m M xs

/-- Invariant of the tracker: the running maximum is non-negative, and the emitted
percents are milestones, strictly increasing, and bounded by the running maximum. -/
def AnalyticsInv (s : AnalyticsState) : Prop :=
  0 ≤ s.maxScroll ∧ (∀ p ∈ s.events, p ∈ milestones) ∧
    s.events.Pairwise (· < ·) ∧ ∀ p ∈ s.events, p ≤ s.maxScroll


/-! ## FAQ accordion (`initFaqAccordion`, script.js 303-316) -/

/-- The FAQ group: the `open` flag of every `.faq-item` in document order, and the
`toggle` events (by item index) that have been queued and not yet dispatched. -/
structure FaqState where
  items : List Bool
  queue : List Nat
  deriving DecidableEq, Repr

/-- The property read `item.open`. -/
def FaqState.isOpen (s : FaqState) (i : Nat) : Bool := s.items.getD i false

/-- Changing the `open` state of item `i`: nothing happens when the state is already `b`,
otherwise the flag changes and a `toggle` event for the item is queued. -/
def setOpen (s : FaqState) (i : Nat) (b : Bool) : FaqState :=
  if s.isOpen i = b then s
  else { items := s.items.set i b, queue := s.queue ++ [i] }

/-- Body of the inner `faqItems.forEach` for the item `i` being toggled (script.js 309-311). -/
def closeIfOther (i : Nat) (acc : FaqState) (otherItem : Nat) : FaqState :=
  if otherItem ≠ i ∧ acc.isOpen otherItem = true then setOpen acc otherItem false else acc

/-- The `toggle` listener registered on item `i` (script.js 306-314). -/
def toggleHandler (i : Nat) (s : FaqState) : FaqState :=
  if s.isOpen i = true then
    (List.range s.items.length).foldl (closeIfOther i) s
  else
    s

/-- Dispatches queued `toggle` events, oldest first, at most `fuel` of them. -/
def dispatchToggles : Nat → FaqState → FaqState
  | 0, s => s
  | fuel + 1, s =>
    match s.queue with
    | [] => s
    | i :: rest => dispatchToggles fuel (toggleHandler i { s with queue := rest })

/-- Measure bounding the number of `toggle` events still to be dispatched. -/
def toggleBudget (s : FaqState) : Nat := 2 * s.items.count true + s.queue.length

/-- Runs the event loop until no `toggle` event is pending. -/
def settleToggles (s : FaqState) : FaqState := dispatchToggles (toggleBudget s) s

/-- A user action on the group. -/
inductive FaqAction where
  | openItem (i : Nat)
  | closeItem (i : Nat)
  deriving DecidableEq, Repr

/-- One user action followed by all the `toggle` handlers it causes. -/
def faqStep (s : FaqState) : FaqAction → FaqState
  | .openItem i => settleToggles (setOpen s i true)
  | .closeItem i => settleToggles (setOpen s i false)

/-- At most one item of the group is open. -/
def atMostOneOpen (s : FaqState) : Prop := s.items.count true ≤ 1

instance (s : FaqState) : Decidable (atMostOneOpen s) := by
  unfold atMostOneOpen; infer_instance

/-! ### Rate limiters -/

theorem timerDelay_of_lt (ms : Nat) (h : ms < 2147483648) : timerDelay ms = ms := by
  unfold timerDelay
  simp only
  rw [Nat.mod_eq_of_lt (by omega), if_pos h]

/-- A call made while the single pending timeout is not yet due replaces that timeout. -/
theorem debounceCall_armed {α : Type} (wait id n t : Nat) (a : α)
    (c : Call α) (h : c.time < t + timerDelay wait) :
    debounceCall wait ⟨some id, n, [⟨id, t + timerDelay wait, a⟩], []⟩ c =
      ⟨some n, n + 1, [⟨n, c.time + timerDelay wait, c.args⟩], []⟩ := by
  have hr : readyBefore c.timersFirst c.time (t + timerDelay wait) = false := by
    simp only [readyBefore, Bool.or_eq_false_iff, Bool.and_eq_false_iff, decide_eq_false_iff_not]
    exact ⟨by omega, Or.inr (by omega)⟩
  simp [debounceCall, fireDebounce, earliest, hr, executedFunction, clearTimeout]

theorem debounce_armed {α : Type} (wait : Nat) (c : Call α) (cs : List (Call α))
    (h : List.Chain (fun p q : Call α => p.time ≤ q.time ∧ q.time < p.time + timerDelay wait)
      c cs) (id n : Nat) :
    ∃ id1 n1, cs.foldl (debounceCall wait)
        ⟨some id, n, [⟨id, c.time + timerDelay wait, c.args⟩], []⟩ =
      ⟨some id1, n1, [⟨id1, ((c :: cs).getLast (List.cons_ne_nil _ _)).time + timerDelay wait,
        ((c :: cs).getLast (List.cons_ne_nil _ _)).args⟩], []⟩ := by
  induction cs generalizing c id n with
  | nil => exact ⟨id, n, rfl⟩
  | cons d cs ih =>
    rw [List.chain_cons] at h
    rw [List.foldl_cons, debounceCall_armed wait id n c.time c.args d h.1.2]
    obtain ⟨id1, n1, h1⟩ := ih d h.2 n (n + 1)
    refine ⟨id1, n1, ?_⟩
    rw [h1, List.getLast_cons (List.cons_ne_nil d cs)]

/-- C1 (as amended): for every `wait` with `0 < wait < 2^31` and every `N ≥ 1` calls of
the debounced function at times `t1 ≤ ... ≤ tN`, each less than `wait` after the previous
one and with no further call, `func` has not run while the clock is before `tN + wait`,
and once the clock has reached `tN + wait` it has run exactly once, at time `tN + wait`,
with the arguments of the last call; no timeout is left pending then. This holds for
every way the scheduler orders a timeout and a call that fall on the same instant. -/
theorem debounce_trailing {α : Type} (wait : Nat) (_hw : 0 < wait)
    (hlim : wait < 2147483648) (c : Call α) (cs : List (Call α))
    (hgap : List.Chain (fun p q : Call α => p.time ≤ q.time ∧ q.time < p.time + wait) c cs)
    (t : Nat) :
    (t < ((c :: cs).getLast (List.cons_ne_nil _ _)).time + wait →
      (debounceRun wait (c :: cs) t).executed = []) ∧
    (((c :: cs).getLast (List.cons_ne_nil _ _)).time + wait ≤ t →
      (debounceRun wait (c :: cs) t).executed =
          [(((c :: cs).getLast (List.cons_ne_nil _ _)).time + wait,
            ((c :: cs).getLast (List.cons_ne_nil _ _)).args)] ∧
      (debounceRun wait (c :: cs) t).pending = []) := by
  have hd : timerDelay wait = wait := timerDelay_of_lt wait hlim
  have h0 : debounceCall wait DebounceState.initial c =
      ⟨some 1, 2, [⟨1, c.time + timerDelay wait, c.args⟩], []⟩ := by
    simp [debounceCall, DebounceState.initial, fireDebounce, executedFunction, clearTimeout]
  obtain ⟨id1, n1, h1⟩ := debounce_armed wait c cs (by rw [hd]; exact hgap) 1 2
  have hrun : debounceRun wait (c :: cs) t =
      fireDebounce (readyBy t) 1 ⟨some id1, n1,
        [⟨id1, ((c :: cs).getLast (List.cons_ne_nil _ _)).time + wait,
          ((c :: cs).getLast (List.cons_ne_nil _ _)).args⟩], []⟩ := by
    rw [hd] at h0 h1
    simp only [debounceRun, List.foldl_cons, h0, h1, List.length_singleton]
  rw [hrun]
  constructor
  · intro ht
    have hr : readyBy t (((c :: cs).getLast (List.cons_ne_nil _ _)).time + wait) = false := by
      simp only [readyBy, decide_eq_false_iff_not]
      omega
    simp [fireDebounce, earliest, hr]
  · intro ht
    have hr : readyBy t (((c :: cs).getLast (List.cons_ne_nil _ _)).time + wait) = true := by
      simp only [readyBy, decide_eq_true_eq]
      omega
    simp [fireDebounce, earliest, hr, later, clearTimeout]

/-- Witness for `debounce_trailing`: three calls at 0, 50, 120 with `wait = 100`. -/
theorem debounce_trailing_witness :
    (0 < 100) ∧ (100 < 2147483648) ∧
    List.Chain (fun p q : Call String => p.time ≤ q.time ∧ q.time < p.time + 100)
      ⟨0, true, "a"⟩ [⟨50, false, "b"⟩, ⟨120, true, "c"⟩] ∧
    ((1000 < (((⟨0, true, "a"⟩ : Call String) ::
        [⟨50, false, "b"⟩, ⟨120, true, "c"⟩]).getLast (List.cons_ne_nil _ _)).time + 100 →
      (debounceRun 100 (⟨0, true, "a"⟩ :: [⟨50, false, "b"⟩, ⟨120, true, "c"⟩])
        1000).executed = []) ∧
    ((((⟨0, true, "a"⟩ : Call String) ::
        [⟨50, false, "b"⟩, ⟨120, true, "c"⟩]).getLast (List.cons_ne_nil _ _)).time + 100
        ≤ 1000 →
      (debounceRun 100 (⟨0, true, "a"⟩ :: [⟨50, false, "b"⟩, ⟨120, true, "c"⟩])
        1000).executed =
          [((((⟨0, true, "a"⟩ : Call String) ::
              [⟨50, false, "b"⟩, ⟨120, true, "c"⟩]).getLast (List.cons_ne_nil _ _)).time + 100,
            (((⟨0, true, "a"⟩ : Call String) ::
              [⟨50, false, "b"⟩, ⟨120, true, "c"⟩]).getLast (List.cons_ne_nil _ _)).args)] ∧
      (debounceRun 100 (⟨0, true, "a"⟩ :: [⟨50, false, "b"⟩, ⟨120, true, "c"⟩])
        1000).pending = [])) :=
  ⟨by decide, by decide, by simp,
    debounce_trailing 100 (by decide) (by decide) ⟨0, true, "a"⟩
      [⟨50, false, "b"⟩, ⟨120, true, "c"⟩] (by simp) 1000⟩

/-- C1 (as stated) fails for a `wait` of `2^31` milliseconds: the platform makes every
timeout due at once, so of two calls made at 0 and 50, each less than `wait` after the
previous one, both have run `func` by time 60 (at 0 and at 50), and at time `50 + wait`
the log is these two executions and not the single execution at `50 + wait`. -/
theorem debounce_wait_overflow :
    (0 < 2147483648) ∧
    List.Chain (fun p q : Call String => p.time ≤ q.time ∧ q.time < p.time + 2147483648)
      ⟨0, true, "a"⟩ [⟨50, true, "b"⟩] ∧
    (debounceRun 2147483648 [⟨0, true, "a"⟩, ⟨50, true, "b"⟩] 60).executed
      = [(0, "a"), (50, "b")] ∧
    (debounceRun 2147483648 [⟨0, true, "a"⟩, ⟨50, true, "b"⟩] (50 + 2147483648)).executed
      = [(0, "a"), (50, "b")] ∧
    ¬ ((debounceRun 2147483648 [⟨0, true, "a"⟩, ⟨50, true, "b"⟩] (50 + 2147483648)).executed
      = [(50 + 2147483648, "b")]) := by
  refine ⟨by decide, by simp, by decide, by decide, by decide⟩

/-- The debounce scenario evaluated: calls at 0, 50, 120 with `wait = 100` run `func`
once, at 220, with the arguments of the call made at 120. -/
theorem debounce_scenario :
    (debounceRun 100 [⟨0, true, "a"⟩, ⟨50, true, "b"⟩, ⟨120, false, "c"⟩] 1000).executed
      = [(220, "c")] ∧
    (debounceRun 100 [⟨0, false, "a"⟩, ⟨50, false, "b"⟩, ⟨120, true, "c"⟩] 219).executed
      = [] := by
  decide

/-- A call on a throttled function whose release timeout is pending: it executes exactly
when that timeout fires before it. -/
theorem throttleCall_armed {α : Type} (limit id n l : Nat) (ex : List (Nat × α))
    (c : Call α) :
    throttleCall limit ⟨true, n, [⟨id, l + timerDelay limit, ()⟩], ex⟩ c =
      if c.time < l + timerDelay limit ∨
          (c.time = l + timerDelay limit ∧ c.timersFirst = false) then
        ⟨true, n, [⟨id, l + timerDelay limit, ()⟩], ex⟩
      else
        ⟨true, n + 1, [⟨n, c.time + timerDelay limit, ()⟩], ex ++ [(c.time, c.args)]⟩ := by
  by_cases h : c.time < l + timerDelay limit ∨
      (c.time = l + timerDelay limit ∧ c.timersFirst = false)
  · have hr : readyBefore c.timersFirst c.time (l + timerDelay limit) = false := by
      simp only [readyBefore, Bool.or_eq_false_iff, Bool.and_eq_false_iff,
        decide_eq_false_iff_not]
      rcases h with h | ⟨h1, h2⟩
      · exact ⟨by omega, Or.inr (by omega)⟩
      · exact ⟨by omega, Or.inl h2⟩
    rw [if_pos h]
    simp [throttleCall, fireThrottle, earliest, hr, throttled]
  · have hr : readyBefore c.timersFirst c.time (l + timerDelay limit) = true := by
      simp only [readyBefore, Bool.or_eq_true, Bool.and_eq_true, decide_eq_true_eq]
      by_cases h1 : l + timerDelay limit < c.time
      · exact Or.inl h1
      · refine Or.inr ⟨?_, ?_⟩
        · cases htf : c.timersFirst
          · exact absurd (Or.inr ⟨by omega, htf⟩) h
          · rfl
        · by_contra hne
          exact h (Or.inl (by omega))
    rw [if_neg h]
    simp [throttleCall, fireThrottle, earliest, hr, throttled, releaseThrottle]

/-- Inside a window the throttled function stays inside a window, its log grows as the
specification says, and the window is always the one of the latest logged execution. -/
theorem throttle_armed {α : Type} (limit : Nat) (cs : List (Call α))
    (id n l : Nat) (ex : List (Nat × α)) (a : α) (hex : ex.getLast? = some (l, a)) :
    ∃ id1 n1 l1 a1,
      cs.foldl (throttleCall limit) ⟨true, n, [⟨id, l + timerDelay limit, ()⟩], ex⟩ =
        ⟨true, n1, [⟨id1, l1 + timerDelay limit, ()⟩],
          ex ++ throttleSpec (timerDelay limit) (some l) cs⟩ ∧
      (ex ++ throttleSpec (timerDelay limit) (some l) cs).getLast? = some (l1, a1) := by
  induction cs generalizing id n l ex a with
  | nil => exact ⟨id, n, l, a, by simp [throttleSpec], by simpa [throttleSpec] using hex⟩
  | cons c cs ih =>
    rw [List.foldl_cons, throttleCall_armed]
    by_cases h : c.time < l + timerDelay limit ∨
        (c.time = l + timerDelay limit ∧ c.timersFirst = false)
    · rw [if_pos h]
      obtain ⟨id1, n1, l1, a1, h1, h2⟩ := ih id n l ex a hex
      refine ⟨id1, n1, l1, a1, ?_, ?_⟩
      · rw [h1]
        simp [throttleSpec, h]
      · simpa [throttleSpec, h] using h2
    · rw [if_neg h]
      obtain ⟨id1, n1, l1, a1, h1, h2⟩ :=
        ih n (n + 1) c.time (ex ++ [(c.time, c.args)]) c.args (by simp)
      refine ⟨id1, n1, l1, a1, ?_, ?_⟩
      · rw [h1]
        simp [throttleSpec, h]
      · simpa [throttleSpec, h] using h2

/-- After at least one call the throttled function is inside the window of its latest
execution, and its log is the one of the specification. -/
theorem throttle_fold_cons {α : Type} (limit : Nat) (c : Call α) (cs : List (Call α)) :
    ∃ id1 n1 l1 a1,
      (c :: cs).foldl (throttleCall limit) ThrottleState.initial =
        ⟨true, n1, [⟨id1, l1 + timerDelay limit, ()⟩],
          throttleSpec (timerDelay limit) none (c :: cs)⟩ ∧
      (throttleSpec (timerDelay limit) none (c :: cs)).getLast? = some (l1, a1) := by
  have h0 : throttleCall limit ThrottleState.initial c =
      ⟨true, 2, [⟨1, c.time + timerDelay limit, ()⟩], [(c.time, c.args)]⟩ := by
    simp [throttleCall, ThrottleState.initial, fireThrottle, throttled]
  obtain ⟨id1, n1, l1, a1, h1, h2⟩ :=
    throttle_armed limit cs 1 2 c.time [(c.time, c.args)] c.args (by simp)
  refine ⟨id1, n1, l1, a1, ?_, ?_⟩
  · rw [List.foldl_cons, h0, h1]
    simp [throttleSpec]
  · simpa [throttleSpec] using h2

theorem throttleRun_of_fold {α : Type} (limit : Nat) (calls : List (Call α))
    (n : Nat) (t : Timeout Unit) (ex : List (Nat × α))
    (h : calls.foldl (throttleCall limit) ThrottleState.initial = ⟨true, n, [t], ex⟩) :
    throttleRun limit calls = ⟨false, n, [], ex⟩ := by
  simp [throttleRun, h, fireThrottle, earliest, releaseThrottle]

/-- The executions of the throttled function are those of the specification, for the
delay the platform uses. -/
theorem throttleRun_executed {α : Type} (limit : Nat) (calls : List (Call α)) :
    (throttleRun limit calls).executed = throttleSpec (timerDelay limit) none calls ∧
    (throttleRun limit calls).pending = [] := by
  cases calls with
  | nil => simp [throttleRun, ThrottleState.initial, fireThrottle, throttleSpec]
  | cons c cs =>
    obtain ⟨id1, n1, l1, a1, h1, _⟩ := throttle_fold_cons limit c cs
    rw [throttleRun_of_fold limit _ _ _ _ h1]
    exact ⟨rfl, rfl⟩

/-- C2 (as amended): for every `limit` with `0 < limit < 2^31` and every sequence of
calls of the throttled function, under every resolution of ties by the scheduler:
the executions of `func` are exactly those of `throttleSpec` and no timeout is left
pending; the first call executes at once; a call made less than `limit` after the latest
executed call is dropped (the log of executions is unchanged, also after all timeouts
have fired); a call made more than `limit` after the latest executed call executes at
once, at its own time and with its own arguments, and becomes the latest executed call. -/
theorem throttle_windows {α : Type} (limit : Nat) (_hpos : 0 < limit)
    (hlim : limit < 2147483648) :
    (∀ calls : List (Call α),
      (throttleRun limit calls).executed = throttleSpec limit none calls ∧
      (throttleRun limit calls).pending = []) ∧
    (∀ (c : Call α) (cs : List (Call α)),
      (throttleRun limit (c :: cs)).executed.head? = some (c.time, c.args)) ∧
    (∀ (pre : List (Call α)) (c : Call α) (last : Nat) (a : α),
      (throttleRun limit pre).executed.getLast? = some (last, a) →
      (c.time < last + limit →
        (throttleRun limit (pre ++ [c])).executed = (throttleRun limit pre).executed) ∧
      (last + limit < c.time →
        (throttleRun limit (pre ++ [c])).executed =
          (throttleRun limit pre).executed ++ [(c.time, c.args)] ∧
        (throttleRun limit (pre ++ [c])).executed.getLast? = some (c.time, c.args))) := by
  have hd : timerDelay limit = limit := timerDelay_of_lt limit hlim
  refine ⟨?_, ?_, ?_⟩
  · intro calls
    have := throttleRun_executed limit calls
    rw [hd] at this
    exact this
  · intro c cs
    rw [(throttleRun_executed limit (c :: cs)).1]
    simp [throttleSpec]
  · intro pre c last a hlast
    cases pre with
    | nil => simp [throttleRun, ThrottleState.initial, fireThrottle] at hlast
    | cons p ps =>
      obtain ⟨id1, n1, l1, a1, h1, h2⟩ := throttle_fold_cons limit p ps
      have hrun := throttleRun_of_fold limit _ _ _ _ h1
      rw [hrun] at hlast ⊢
      simp only at hlast ⊢
      rw [h2] at hlast
      have hl : l1 = last := by
        have := Option.some.inj hlast
        exact congrArg Prod.fst this
      subst hl
      have hfold : (p :: ps ++ [c]).foldl (throttleCall limit) ThrottleState.initial =
          throttleCall limit ⟨true, n1, [⟨id1, l1 + timerDelay limit, ()⟩],
            throttleSpec (timerDelay limit) none (p :: ps)⟩ c := by
        rw [List.foldl_append, h1]
        rfl
      rw [throttleCall_armed] at hfold
      rw [hd] at hfold
      constructor
      · intro hlt
        rw [if_pos (Or.inl hlt)] at hfold
        rw [throttleRun_of_fold limit _ _ _ _ hfold]
        simp only [hd]
      · intro hgt
        rw [if_neg (by
          intro hc
          rcases hc with hc | ⟨hc, _⟩ <;> omega)] at hfold
        rw [throttleRun_of_fold limit _ _ _ _ hfold]
        exact ⟨by simp only [hd], by simp⟩

/-- Witness for `throttle_windows`: `limit = 100`. -/
theorem throttle_windows_witness :
    (0 < 100) ∧ (100 < 2147483648) ∧
    ((∀ calls : List (Call String),
      (throttleRun 100 calls).executed = throttleSpec 100 none calls ∧
      (throttleRun 100 calls).pending = []) ∧
    (∀ (c : Call String) (cs : List (Call String)),
      (throttleRun 100 (c :: cs)).executed.head? = some (c.time, c.args)) ∧
    (∀ (pre : List (Call String)) (c : Call String) (last : Nat) (a : String),
      (throttleRun 100 pre).executed.getLast? = some (last, a) →
      (c.time < last + 100 →
        (throttleRun 100 (pre ++ [c])).executed = (throttleRun 100 pre).executed) ∧
      (last + 100 < c.time →
        (throttleRun 100 (pre ++ [c])).executed =
          (throttleRun 100 pre).executed ++ [(c.time, c.args)] ∧
        (throttleRun 100 (pre ++ [c])).executed.getLast? = some (c.time, c.args)))) :=
  ⟨by decide, by decide, throttle_windows 100 (by decide) (by decide)⟩

/-- C2 (as stated) fails for a `limit` of `2^31` milliseconds: the platform makes the
release timeout due at once, so a call made 40 ms after the executed call at 0, well
inside the window, executes as well, where the specification drops it. -/
theorem throttle_limit_overflow :
    (0 < 2147483648) ∧ (40 < 0 + 2147483648) ∧
    (throttleRun 2147483648 [⟨0, false, "a"⟩]).executed = [(0, "a")] ∧
    (throttleRun 2147483648 [⟨0, false, "a"⟩, ⟨40, false, "b"⟩]).executed
      = [(0, "a"), (40, "b")] ∧
    throttleSpec 2147483648 none [(⟨0, false, "a"⟩ : Call String), ⟨40, false, "b"⟩]
      = [(0, "a")] ∧
    ¬ ((throttleRun 2147483648 [⟨0, false, "a"⟩, ⟨40, false, "b"⟩]).executed
      = (throttleRun 2147483648 [⟨0, false, "a"⟩]).executed) := by
  refine ⟨by decide, by decide, by decide, by decide, by decide, by decide⟩

/-- The throttle scenario evaluated with `limit = 100`: of the calls at 0, 50, 99, 101
and 150 exactly the calls at 0 and 101 execute, whatever the scheduler does on ties; of
the calls at 0 and 100, the second executes exactly when the release timeout ran first. -/
theorem throttle_scenario (b : Bool) :
    (throttleRun 100
      [⟨0, b, "a"⟩, ⟨50, !b, "b"⟩, ⟨99, b, "c"⟩, ⟨101, !b, "d"⟩, ⟨150, b, "e"⟩]).executed
      = [(0, "a"), (101, "d")] ∧
    (throttleRun 100 [⟨0, b, "a"⟩, ⟨100, true, "b"⟩]).executed = [(0, "a"), (100, "b")] ∧
    (throttleRun 100 [⟨0, b, "a"⟩, ⟨100, false, "b"⟩]).executed = [(0, "a")] := by
  cases b <;> decide
/-! ### Countdown -/

theorem initCountdown_idle (s : CountdownState)
    (h : (lookupTimerElements s.document).hours.length = 0) : initCountdown s = s := by
  rw [initCountdown]
  simp [h]

theorem initCountdown_run (s : CountdownState)
    (h : (lookupTimerElements s.document).hours.length ≠ 0) :
    initCountdown s =
      setInterval s.scopes.length (updateTimer s.scopes.length
        (if truthy s.countdownInterval then
          clearInterval s.countdownInterval
            { s with scopes := s.scopes ++ [⟨lookupTimerElements s.document, 2159⟩] }
        else { s with scopes := s.scopes ++ [⟨lookupTimerElements s.document, 2159⟩] })) := by
  rw [initCountdown]
  simp [h]

theorem updateTimer_none (k : Nat) (s : CountdownState) (h : s.scopes[k]? = none) :
    updateTimer k s = s := by
  rw [updateTimer]
  split
  · rfl
  · simp_all

theorem updateTimer_nonneg (k : Nat) (s : CountdownState) (sc : Scope)
    (h : s.scopes[k]? = some sc) (hts : 0 ≤ sc.totalSeconds) :
    updateTimer k s =
      { s with document := render sc s.document
               scopes := s.scopes.set k { sc with totalSeconds := sc.totalSeconds - 1 } } := by
  rw [updateTimer]
  split
  · simp_all
  · rename_i sc1 h1
    have : sc1 = sc := by rw [h] at h1; exact (Option.some.inj h1).symm
    subst this
    simp [not_lt.mpr hts]

theorem updateTimer_neg (k : Nat) (s : CountdownState) (sc : Scope)
    (h : s.scopes[k]? = some sc) (hts : sc.totalSeconds < 0) :
    updateTimer k s =
      initCountdown (clearInterval s.countdownInterval
        { s with document := render sc s.document }) := by
  rw [updateTimer]
  split
  · simp_all
  · rename_i sc1 h1
    have : sc1 = sc := by rw [h] at h1; exact (Option.some.inj h1).symm
    subst this
    simp [hts]

theorem modify_isSome (d : Document) (id j : ElementId) (f : Display → Display) :
    ((d.modify id f).getElementById j).isSome = (d.getElementById j).isSome := by
  cases id <;> cases j <;> simp [Document.modify, Document.getElementById]

theorem lookup_modify (d : Document) (id : ElementId) (f : Display → Display) :
    lookupTimerElements (d.modify id f) = lookupTimerElements d := by
  simp only [lookupTimerElements, modify_isSome]

theorem lookup_forEachElement (ids : List ElementId) (f : Display → Display) (d : Document) :
    lookupTimerElements (forEachElement ids f d) = lookupTimerElements d := by
  induction ids generalizing d with
  | nil => rfl
  | cons id ids ih =>
    simp only [forEachElement, List.foldl_cons] at ih ⊢
    rw [ih, lookup_modify]

theorem lookup_render (sc : Scope) (d : Document) :
    lookupTimerElements (render sc d) = lookupTimerElements d := by
  unfold render
  simp only
  split_ifs <;> simp only [lookup_forEachElement]

theorem hours_length_iff (d : Document) :
    (lookupTimerElements d).hours.length ≠ 0 ↔ hasHoursDisplay d := by
  unfold hasHoursDisplay lookupTimerElements Document.getElementById
  cases d.hoursDesktop <;> cases d.hoursMobile <;> simp [List.filter]

/-- Starting the countdown when the registry is empty, or holds only the registration
stored in `countdownInterval`, leaves exactly one registration, on a fresh closure that
has rendered 2159 and now holds 2158. -/
theorem initCountdown_fresh (s : CountdownState)
    (hiv : s.intervals = [] ∨
      ∃ id k, s.intervals = [⟨id, k⟩] ∧ s.countdownInterval = some id ∧ id ≠ 0)
    (hn : s.nextId ≠ 0) (hh : (lookupTimerElements s.document).hours.length ≠ 0)
    (hm : s.maxActive ≤ 1) :
    Running (initCountdown s) s.nextId s.scopes.length 2158 ∧
    activations (initCountdown s) = activations s + 1 ∧
    (initCountdown s).document = render ⟨lookupTimerElements s.document, 2159⟩ s.document := by
  rw [initCountdown_run s hh]
  have hcl : (if truthy s.countdownInterval then
      clearInterval s.countdownInterval
        { s with scopes := s.scopes ++ [⟨lookupTimerElements s.document, 2159⟩] }
      else { s with scopes := s.scopes ++ [⟨lookupTimerElements s.document, 2159⟩] }) =
      { s with intervals := []
               scopes := s.scopes ++ [⟨lookupTimerElements s.document, 2159⟩] } := by
    rcases hiv with hiv | ⟨id, k, hiv, hci, hid⟩
    · split_ifs
      · cases hci : s.countdownInterval <;> simp [clearInterval, hiv]
      · simp [hiv]
    · have ht : truthy s.countdownInterval = true := by simp [truthy, hci, hid]
      rw [if_pos ht, hci]
      simp [clearInterval, hiv]
  rw [hcl]
  rw [updateTimer_nonneg s.scopes.length _ ⟨lookupTimerElements s.document, 2159⟩
    (by simp) (by simp)]
  refine ⟨⟨?_, ?_, ?_, ?_, ?_, ?_, ?_⟩, ?_, ?_⟩
  · simp [setInterval]
  · simp [setInterval]
  · exact hn
  · simp [setInterval]
  · exact ⟨lookupTimerElements s.document, by simp [setInterval]⟩
  · simp only [setInterval, lookup_render]
    exact hh
  · simp only [setInterval, List.length_nil, zero_add]
    omega
  · simp [activations, setInterval]
  · simp [setInterval]

theorem intervalTick_running (s : CountdownState) (id k : Nat) (ts : Int)
    (h : Running s id k ts) : intervalTick s = updateTimer k s := by
  obtain ⟨hiv, _⟩ := h
  simp [intervalTick, hiv]

/-- A tick with a non-negative counter renders and decrements, and nothing else. -/
theorem tick_nonneg (s : CountdownState) (id k : Nat) (ts : Int) (h : Running s id k ts)
    (hts : 0 ≤ ts) :
    Running (intervalTick s) id k (ts - 1) ∧ activations (intervalTick s) = activations s := by
  rw [intervalTick_running s id k ts h]
  obtain ⟨hiv, hci, hid, hn, ⟨te, hsc⟩, hh, hm⟩ := h
  rw [updateTimer_nonneg k s ⟨te, ts⟩ hsc hts]
  have hk : k < s.scopes.length := by
    by_contra hc
    rw [List.getElem?_eq_none (by omega)] at hsc
    exact absurd hsc (by simp)
  refine ⟨⟨hiv, hci, hid, hn, ⟨te, ?_⟩, ?_, hm⟩, ?_⟩
  · simp [hk]
  · simp only [lookup_render]
    exact hh
  · simp [activations]

/-- A tick with a negative counter cancels the registration and restarts the countdown. -/
theorem tick_neg (s : CountdownState) (id k : Nat) (ts : Int) (h : Running s id k ts)
    (hts : ts < 0) :
    Running (intervalTick s) s.nextId s.scopes.length 2158 ∧
    activations (intervalTick s) = activations s + 1 := by
  rw [intervalTick_running s id k ts h]
  obtain ⟨hiv, hci, hid, hn, ⟨te, hsc⟩, hh, hm⟩ := h
  rw [updateTimer_neg k s ⟨te, ts⟩ hsc hts]
  have := initCountdown_fresh (clearInterval s.countdownInterval
      { s with document := render ⟨te, ts⟩ s.document })
    (Or.inl (by simp [clearInterval, hci, hiv]))
    (by simpa [clearInterval, hci] using hn)
    (by simpa [clearInterval, hci, lookup_render] using hh)
    (by simpa [clearInterval, hci] using hm)
  simpa [clearInterval, hci, activations] using And.intro this.1 this.2.1

/-- A call of `initCountdown` while running cancels the registration and restarts. -/
theorem start_running (s : CountdownState) (id k : Nat) (ts : Int) (h : Running s id k ts) :
    Running (initCountdown s) s.nextId s.scopes.length 2158 ∧
    activations (initCountdown s) = activations s + 1 := by
  obtain ⟨hiv, hci, hid, hn, _, hh, hm⟩ := h
  have := initCountdown_fresh s (Or.inr ⟨id, k, hiv, hci, hid⟩) hn hh hm
  exact ⟨this.1, this.2.1⟩

theorem start_initial (d : Document) (hd : hasHoursDisplay d) :
    Running (initCountdown (CountdownState.initial d)) 1 0 2158 ∧
    activations (initCountdown (CountdownState.initial d)) = 1 ∧
    (initCountdown (CountdownState.initial d)).document =
      render ⟨lookupTimerElements d, 2159⟩ d := by
  have := initCountdown_fresh (CountdownState.initial d) (Or.inl rfl)
    (by simp [CountdownState.initial])
    ((hours_length_iff d).mpr hd) (by simp [CountdownState.initial])
  simpa [CountdownState.initial, activations] using this

theorem remaining_running (s : CountdownState) (id k : Nat) (ts : Int)
    (h : Running s id k ts) : remaining s = [ts] := by
  obtain ⟨hiv, _, _, _, ⟨te, hsc⟩, _, _⟩ := h
  simp [remaining, hiv, hsc]

/-- During the first cycle the counter after `n` ticks is `2158 - n`, on the first
closure. -/
theorem first_cycle (d : Document) (hd : hasHoursDisplay d) (n : Nat) (hn : n ≤ 2159) :
    Running (ticks n (initCountdown (CountdownState.initial d))) 1 0 (2158 - (n : Int)) ∧
    activations (ticks n (initCountdown (CountdownState.initial d))) = 1 := by
  induction n with
  | zero =>
    have := start_initial d hd
    simpa [ticks] using And.intro this.1 this.2.1
  | succ n ih =>
    obtain ⟨h1, h2⟩ := ih (by omega)
    have := tick_nonneg _ 1 0 _ h1 (by omega)
    simp only [ticks]
    refine ⟨?_, by rw [this.2, h2]⟩
    have h3 : (2158 : Int) - ((n + 1 : Nat) : Int) = 2158 - (n : Int) - 1 := by
      push_cast
      ring
    rw [h3]
    exact this.1

/-- The countdown keeps running on one registration with a counter between -1 and 2158. -/
theorem ticks_running (d : Document) (hd : hasHoursDisplay d) (n : Nat) :
    ∃ id k ts, Running (ticks n (initCountdown (CountdownState.initial d))) id k ts ∧
      -1 ≤ ts ∧ ts ≤ 2158 := by
  induction n with
  | zero => exact ⟨1, 0, 2158, (start_initial d hd).1, by omega, by omega⟩
  | succ n ih =>
    obtain ⟨id, k, ts, h, h1, h2⟩ := ih
    simp only [ticks]
    by_cases hts : 0 ≤ ts
    · exact ⟨id, k, ts - 1, (tick_nonneg _ id k ts h hts).1, by omega, by omega⟩
    · exact ⟨_, _, 2158, (tick_neg _ id k ts h (by omega)).1, by omega, by omega⟩

/-- C3 (as amended): with an hours display present, in every state reached from
`initCountdown` by any number of 1000 ms ticks there is exactly one running counter
`totalSeconds`, and it is at least -1 (and at most 2158). -/
theorem countdown_counter_bounds (d : Document) (hd : hasHoursDisplay d) (n : Nat) :
    ∃ r, remaining (ticks n (initCountdown (CountdownState.initial d))) = [r] ∧
      -1 ≤ r ∧ r ≤ 2158 := by
  obtain ⟨id, k, ts, h, h1, h2⟩ := ticks_running d hd n
  exact ⟨ts, remaining_running _ id k ts h, h1, h2⟩

/-- Witness for `countdown_counter_bounds`: all six displays present, ten ticks. -/
theorem countdown_counter_bounds_witness :
    hasHoursDisplay fullDocument ∧
    ∃ r, remaining (ticks 10 (initCountdown (CountdownState.initial fullDocument))) = [r] ∧
      -1 ≤ r ∧ r ≤ 2158 :=
  ⟨by decide, countdown_counter_bounds fullDocument (by decide) 10⟩

/-- C3 (as stated) fails: with all six displays present, after 2159 ticks the counter
`totalSeconds` is -1. -/
theorem countdown_counter_negative :
    hasAnyDisplay fullDocument ∧ hasHoursDisplay fullDocument ∧
    remaining (ticks 2159 (initCountdown (CountdownState.initial fullDocument))) = [-1] ∧
    ¬ (∀ r ∈ remaining (ticks 2159 (initCountdown (CountdownState.initial fullDocument))),
        0 ≤ r) := by
  have h := (first_cycle fullDocument (by decide) 2159 (by omega)).1
  have hr := remaining_running _ _ _ _ h
  have hr1 : remaining (ticks 2159 (initCountdown (CountdownState.initial fullDocument)))
      = [-1] := by
    rw [hr]
    norm_num
  refine ⟨by decide, by decide, hr1, ?_⟩
  rw [hr1]
  intro hall
  have := hall (-1) (List.mem_singleton.mpr rfl)
  omega

/-- C10: starting from 2159 with an immediate first render (which leaves 2158 in the
counter), the countdown has not restarted after any number of ticks below 2160, and after
exactly 2160 ticks `initCountdown` has run a second time: a new closure exists whose
counter was reset to 2159 and, after its immediate render, holds 2158. -/
theorem countdown_cycle_length (d : Document) (hd : hasHoursDisplay d) :
    remaining (initCountdown (CountdownState.initial d)) = [2158] ∧
    (initCountdown (CountdownState.initial d)).document =
      render ⟨lookupTimerElements d, 2159⟩ d ∧
    (∀ n, n < 2160 → activations (ticks n (initCountdown (CountdownState.initial d))) = 1) ∧
    activations (ticks 2160 (initCountdown (CountdownState.initial d))) = 2 ∧
    remaining (ticks 2160 (initCountdown (CountdownState.initial d))) = [2158] := by
  have h0 := start_initial d hd
  obtain ⟨h1, h2⟩ := first_cycle d hd 2159 (by omega)
  have h3 := tick_neg _ 1 0 _ h1 (by norm_num)
  refine ⟨remaining_running _ _ _ _ h0.1, h0.2.2, ?_, ?_, ?_⟩
  · intro n hn
    exact (first_cycle d hd n (by omega)).2
  · show activations (intervalTick (ticks 2159 _)) = 2
    rw [h3.2, h2]
  · show remaining (intervalTick (ticks 2159 _)) = [2158]
    exact remaining_running _ _ _ _ h3.1

/-- Witness for `countdown_cycle_length`: all six displays present. -/
theorem countdown_cycle_length_witness :
    hasHoursDisplay fullDocument ∧
    (remaining (initCountdown (CountdownState.initial fullDocument)) = [2158] ∧
    (initCountdown (CountdownState.initial fullDocument)).document =
      render ⟨lookupTimerElements fullDocument, 2159⟩ fullDocument ∧
    (∀ n, n < 2160 →
      activations (ticks n (initCountdown (CountdownState.initial fullDocument))) = 1) ∧
    activations (ticks 2160 (initCountdown (CountdownState.initial fullDocument))) = 2 ∧
    remaining (ticks 2160 (initCountdown (CountdownState.initial fullDocument))) = [2158]) :=
  ⟨by decide, countdown_cycle_length fullDocument (by decide)⟩

theorem countdownStep_running (s : CountdownState) (e : CountdownEvent)
    (h : ∃ id k ts, Running s id k ts) : ∃ id k ts, Running (countdownStep s e) id k ts := by
  obtain ⟨id, k, ts, h⟩ := h
  cases e with
  | start => exact ⟨_, _, 2158, (start_running s id k ts h).1⟩
  | tick =>
    by_cases hts : 0 ≤ ts
    · exact ⟨id, k, ts - 1, (tick_nonneg s id k ts h hts).1⟩
    · exact ⟨_, _, 2158, (tick_neg s id k ts h (by omega)).1⟩

theorem countdownSteps_running (s : CountdownState) (evs : List CountdownEvent)
    (h : ∃ id k ts, Running s id k ts) :
    ∃ id k ts, Running (evs.foldl countdownStep s) id k ts := by
  induction evs generalizing s with
  | nil => exact h
  | cons e evs ih => exact ih _ (countdownStep_running s e h)

theorem countdownSteps_initial (d : Document) (hd : hasHoursDisplay d)
    (evs : List CountdownEvent) (hs : CountdownEvent.start ∈ evs) :
    ∃ id k ts, Running (evs.foldl countdownStep (CountdownState.initial d)) id k ts := by
  induction evs with
  | nil => simp at hs
  | cons e evs ih =>
    rw [List.foldl_cons]
    cases e with
    | start =>
      exact countdownSteps_running _ evs ⟨1, 0, 2158, (start_initial d hd).1⟩
    | tick =>
      have : countdownStep (CountdownState.initial d) .tick = CountdownState.initial d := rfl
      rw [this]
      exact ih (by simpa using hs)

/-- C4: with at least one hours display present, after any sequence of `initCountdown`
calls and interval ticks that contains a call of `initCountdown` (ticks include the
restart performed by `updateTimer` on a negative counter), exactly one interval
registration is active, it is the one stored in `countdownInterval`, and no registration
was ever created while another one was still active. -/
theorem countdown_single_interval (d : Document) (hd : hasHoursDisplay d)
    (evs : List CountdownEvent) (hs : CountdownEvent.start ∈ evs) :
    (evs.foldl countdownStep (CountdownState.initial d)).intervals.length = 1 ∧
    (evs.foldl countdownStep (CountdownState.initial d)).intervals.map (fun iv => some iv.id)
      = [(evs.foldl countdownStep (CountdownState.initial d)).countdownInterval] ∧
    (evs.foldl countdownStep (CountdownState.initial d)).maxActive ≤ 1 := by
  obtain ⟨id, k, ts, hiv, hci, _, _, _, _, hm⟩ := countdownSteps_initial d hd evs hs
  refine ⟨by rw [hiv]; rfl, by rw [hiv, hci]; rfl, hm⟩

/-- Witness for `countdown_single_interval`: a start, two ticks and a second start. -/
theorem countdown_single_interval_witness :
    hasHoursDisplay fullDocument ∧
    CountdownEvent.start ∈
      [CountdownEvent.start, CountdownEvent.tick, CountdownEvent.tick, CountdownEvent.start] ∧
    (([CountdownEvent.start, CountdownEvent.tick, CountdownEvent.tick,
        CountdownEvent.start].foldl countdownStep
        (CountdownState.initial fullDocument)).intervals.length = 1 ∧
    ([CountdownEvent.start, CountdownEvent.tick, CountdownEvent.tick,
        CountdownEvent.start].foldl countdownStep
        (CountdownState.initial fullDocument)).intervals.map (fun iv => some iv.id)
      = [([CountdownEvent.start, CountdownEvent.tick, CountdownEvent.tick,
        CountdownEvent.start].foldl countdownStep
        (CountdownState.initial fullDocument)).countdownInterval] ∧
    ([CountdownEvent.start, CountdownEvent.tick, CountdownEvent.tick,
        CountdownEvent.start].foldl countdownStep
        (CountdownState.initial fullDocument)).maxActive ≤ 1) :=
  ⟨by decide, by decide, countdown_single_interval fullDocument (by decide) _ (by decide)⟩

/-- C8 (as amended): started on a fresh page, `initCountdown` leaves no timer armed if and
only if no hours display (desktop or mobile) exists, and then changes nothing at all;
whenever an hours display exists it renders 2159 at once on the displays it found,
leaves 2158 in the counter and arms exactly one tick registration. -/
theorem countdown_idle_iff_no_hours (d : Document) :
    ((initCountdown (CountdownState.initial d)).intervals = [] ↔ ¬ hasHoursDisplay d) ∧
    (¬ hasHoursDisplay d →
      initCountdown (CountdownState.initial d) = CountdownState.initial d) ∧
    (hasHoursDisplay d →
      (initCountdown (CountdownState.initial d)).document =
        render ⟨lookupTimerElements d, 2159⟩ d ∧
      remaining (initCountdown (CountdownState.initial d)) = [2158] ∧
      (initCountdown (CountdownState.initial d)).intervals = [⟨1, 0⟩]) := by
  have hidle : ¬ hasHoursDisplay d →
      initCountdown (CountdownState.initial d) = CountdownState.initial d := by
    intro hd
    apply initCountdown_idle
    by_contra hc
    exact hd ((hours_length_iff d).mp hc)
  refine ⟨⟨?_, ?_⟩, hidle, ?_⟩
  · intro h hd
    have := (start_initial d hd).1.1
    rw [h] at this
    exact absurd this (by simp)
  · intro hd
    rw [hidle hd]
    rfl
  · intro hd
    have h := start_initial d hd
    exact ⟨h.2.2, remaining_running _ _ _ _ h.1, h.1.1⟩

/-- C8 (as stated) fails: on a page whose only display is a minutes display,
`initCountdown` changes nothing and leaves no timer armed. -/
theorem countdown_idle_with_minutes_display :
    hasAnyDisplay minutesOnlyDocument ∧
    initCountdown (CountdownState.initial minutesOnlyDocument) =
      CountdownState.initial minutesOnlyDocument ∧
    (initCountdown (CountdownState.initial minutesOnlyDocument)).intervals = [] := by
  have h : initCountdown (CountdownState.initial minutesOnlyDocument) =
      CountdownState.initial minutesOnlyDocument :=
    initCountdown_idle _ (by decide)
  exact ⟨by decide, h, by rw [h]; rfl⟩

/-! ### Scroll controller -/

theorem clearScrollStopTimer_single (s : ScrollState) (h : SingleSlot s) :
    (clearScrollStopTimer s).pending = [] := by
  unfold clearScrollStopTimer
  rcases h with h | ⟨t, h1, h2⟩
  · cases s.scrollStopTimer <;> simp [h]
  · simp [h1, h2]

theorem armScrollStopTimer_single (cb : HideCallback) (s : ScrollState) (h : s.pending = []) :
    SingleSlot (armScrollStopTimer cb s) :=
  Or.inr ⟨⟨s.nextId, cb⟩, by simp [armScrollStopTimer, h], rfl⟩

theorem handleScroll_single (y : Int) (s : ScrollState) (h : SingleSlot s) :
    SingleSlot (handleScroll y s) := by
  have h1 : SingleSlot (match s.scrollToTop with
      | some _ => { s with scrollToTop := some (decide (y > 500)) }
      | none => s) := by
    cases s.scrollToTop <;> exact h
  have h2 := clearScrollStopTimer_single _ h1
  unfold handleScroll
  simp only
  split_ifs
  · exact armScrollStopTimer_single _ _ h2
  · exact Or.inl h2
  · exact Or.inl h2

/-- The paths that cancel before arming keep the timeout single: along any sequence of
handled scroll events, pointer-enter events and expiries (no pointer-leave), at most one
hide timeout is pending, and it is the one held in `scrollStopTimer`. -/
theorem scroll_single_slot_without_leave (s : ScrollState) (evs : List ScrollEvent)
    (h : SingleSlot s) (hev : ∀ e ∈ evs, e.notLeave = true) :
    SingleSlot (evs.foldl scrollStep s) ∧ (evs.foldl scrollStep s).pending.length ≤ 1 := by
  have key : SingleSlot (evs.foldl scrollStep s) := by
    induction evs generalizing s with
    | nil => exact h
    | cons e evs ih =>
      rw [List.foldl_cons]
      apply ih
      · cases e with
        | scroll y => exact handleScroll_single y s h
        | mouseenter b =>
          simp only [scrollStep]
          split_ifs
          · exact Or.inl (clearScrollStopTimer_single _ h)
          · exact h
        | mouseleave b =>
          have := hev (.mouseleave b) (List.mem_cons_self _ _)
          simp [ScrollEvent.notLeave] at this
        | expire handle =>
          simp only [scrollStep]
          split
          · exact h
          · rename_i t ht
            left
            rcases h with h | ⟨u, h1, h2⟩
            · rw [h] at ht
              simp at ht
            · rw [h1] at ht
              have hid : u.id = handle := by
                simp only [List.find?_cons, List.find?_nil] at ht
                split at ht <;> simp_all
              cases t.callback <;> simp [runHideCallback, h1, hid]
      · intro e' he'
        exact hev e' (List.mem_cons_of_mem _ he')
  refine ⟨key, ?_⟩
  rcases key with h1 | ⟨t, h1, _⟩ <;> simp [h1]

/-- Witness for `scroll_single_slot_without_leave`: one banner; scroll to 600, enter, scroll
again, the first timeout expiring late. -/
theorem scroll_single_slot_without_leave_witness :
    SingleSlot (ScrollState.initial (some false) 1) ∧
    (∀ e ∈ [ScrollEvent.scroll 600, ScrollEvent.mouseenter 0, ScrollEvent.scroll 700,
        ScrollEvent.expire 1], e.notLeave = true) ∧
    (SingleSlot ([ScrollEvent.scroll 600, ScrollEvent.mouseenter 0, ScrollEvent.scroll 700,
        ScrollEvent.expire 1].foldl scrollStep (ScrollState.initial (some false) 1)) ∧
      ([ScrollEvent.scroll 600, ScrollEvent.mouseenter 0, ScrollEvent.scroll 700,
        ScrollEvent.expire 1].foldl scrollStep
          (ScrollState.initial (some false) 1)).pending.length ≤ 1) :=
  ⟨Or.inl rfl, by decide,
    scroll_single_slot_without_leave (ScrollState.initial (some false) 1) _ (Or.inl rfl)
      (by decide)⟩

/-- C9 at its failing inputs: the `mouseleave` listener arms a timeout without cancelling
the pending one. With one banner that the pointer is already inside when the listeners are
attached, a handled scroll to offset 600 followed by the pointer leaving the banner leaves
two hide timeouts pending. With two nested banners (0 the outer, 1 the inner), the pointer
entering both, leaving the inner one, a scroll to offset 600 and the pointer leaving the
outer one leave two hide timeouts pending as well. For two banners entered in the order
0, 1 and left in the order 0, 1 the same happens: handles 2 and 3 are pending and
`scrollStopTimer` holds only the later one; when the pointer then re-enters a banner, the
earlier timeout survives the `clearTimeout` and, on expiry, hides every banner while the
pointer is over one. -/
theorem scroll_hide_timer_stacks :
    ([ScrollEvent.mouseenter 0, ScrollEvent.mouseenter 1, ScrollEvent.mouseleave 0,
        ScrollEvent.scroll 600, ScrollEvent.mouseleave 1].foldl scrollStep
        (ScrollState.initial (some false) 2)).pending
      = [⟨2, .hideAll⟩, ⟨3, .hideOne 1⟩] ∧
    ([ScrollEvent.mouseenter 0, ScrollEvent.mouseenter 1, ScrollEvent.mouseleave 0,
        ScrollEvent.scroll 600, ScrollEvent.mouseleave 1].foldl scrollStep
        (ScrollState.initial (some false) 2)).scrollStopTimer = some 3 ∧
    ([ScrollEvent.mouseenter 0, ScrollEvent.mouseenter 1, ScrollEvent.mouseleave 0,
        ScrollEvent.scroll 600, ScrollEvent.mouseleave 1, ScrollEvent.mouseenter 0].foldl
        scrollStep (ScrollState.initial (some false) 2)).pending = [⟨2, .hideAll⟩] ∧
    ([ScrollEvent.mouseenter 0, ScrollEvent.mouseenter 1, ScrollEvent.mouseleave 0,
        ScrollEvent.scroll 600, ScrollEvent.mouseleave 1, ScrollEvent.mouseenter 0,
        ScrollEvent.expire 2].foldl scrollStep (ScrollState.initial (some false) 2))
      = { scrollToTop := some true, allTimers := [false, false], scrollStopTimer := some 3,
          isMouseOverTimer := true, nextId := 4, pending := [] } ∧
    ([ScrollEvent.scroll 600, ScrollEvent.mouseleave 0].foldl scrollStep
        (ScrollState.initial (some false) 1)).pending
      = [⟨1, .hideAll⟩, ⟨2, .hideOne 0⟩] ∧
    ([ScrollEvent.mouseenter 0, ScrollEvent.mouseenter 1, ScrollEvent.mouseleave 1,
        ScrollEvent.scroll 600, ScrollEvent.mouseleave 0].foldl scrollStep
        (ScrollState.initial (some false) 2)).pending
      = [⟨2, .hideAll⟩, ⟨3, .hideOne 0⟩] ∧
    ([ScrollEvent.scroll 600, ScrollEvent.mouseleave 0, ScrollEvent.mouseenter 0,
        ScrollEvent.expire 1].foldl scrollStep (ScrollState.initial (some false) 1))
      = { scrollToTop := some true, allTimers := [false], scrollStopTimer := some 2,
          isMouseOverTimer := true, nextId := 3, pending := [] } := by
  decide

/-! ### Scroll-depth analytics -/

theorem trackScrollDepthAll_nil (s : AnalyticsState) : trackScrollDepthAll s [] = s := rfl

theorem trackScrollDepthAll_cons (s : AnalyticsState) (x : Int) (xs : List Int) :
    trackScrollDepthAll s (x :: xs) = trackScrollDepthAll (trackScrollDepth s x) xs := rfl

theorem trackScrollDepthAll_append (s : AnalyticsState) (xs ys : List Int) :
    trackScrollDepthAll s (xs ++ ys) = trackScrollDepthAll (trackScrollDepthAll s xs) ys := by
  simp [trackScrollDepthAll, List.foldl_append]

/-- The handler body with its local bindings unfolded. -/
theorem trackScrollDepth_eq (s : AnalyticsState) (x : Int) :
    trackScrollDepth s x =
      if x > s.maxScroll then
        (if Int.tmod x 25 = 0 ∧ x ≤ 100 then ⟨x, s.events ++ [x]⟩ else ⟨x, s.events⟩)
      else s := rfl

/-- One sample never lowers `maxScroll`. -/
theorem trackScrollDepth_maxScroll_le (s : AnalyticsState) (x : Int) :
    s.maxScroll ≤ (trackScrollDepth s x).maxScroll := by
  rw [trackScrollDepth_eq]
  split_ifs <;> simp <;> omega

theorem trackScrollDepthAll_maxScroll_le (s : AnalyticsState) (xs : List Int) :
    s.maxScroll ≤ (trackScrollDepthAll s xs).maxScroll := by
  induction xs generalizing s with
  | nil => simp [trackScrollDepthAll_nil]
  | cons x xs ih =>
    rw [trackScrollDepthAll_cons]
    exact le_trans (trackScrollDepth_maxScroll_le s x) (ih _)

theorem milestone_of_tmod {x : Int} (h0 : 0 < x) (h1 : Int.tmod x 25 = 0) (h2 : x ≤ 100) :
    x ∈ milestones := by
  have h3 : x % 25 = 0 := by
    rw [Int.tmod_eq_emod (by omega) (by omega)] at h1
    exact h1
  simp only [milestones, List.mem_cons, List.mem_singleton, List.not_mem_nil, or_false]
  omega

theorem AnalyticsInv_step (s : AnalyticsState) (x : Int) (h : AnalyticsInv s) :
    AnalyticsInv (trackScrollDepth s x) := by
  obtain ⟨h0, hm, hp, hb⟩ := h
  rw [trackScrollDepth_eq]
  split_ifs with hx hc
  · refine ⟨by simp; omega, ?_, ?_, ?_⟩
    · intro p hp'
      simp only [List.mem_append, List.mem_singleton] at hp'
      rcases hp' with hp' | rfl
      · exact hm p hp'
      · exact milestone_of_tmod (by simp at hx; omega) hc.1 hc.2
    · simp only [List.pairwise_append, List.pairwise_singleton, List.mem_singleton, true_and]
      refine ⟨hp, ?_⟩
      intro a ha b hb'
      subst hb'
      have := hb a ha
      simp at hx
      omega
    · intro p hp'
      simp only [List.mem_append, List.mem_singleton] at hp'
      rcases hp' with hp' | rfl
      · have := hb p hp'
        simp at hx ⊢
        omega
      · simp
  · refine ⟨by simp; omega, hm, hp, ?_⟩
    intro p hp'
    have := hb p hp'
    simp at hx ⊢
    omega
  · exact ⟨h0, hm, hp, hb⟩

theorem AnalyticsInv_all (s : AnalyticsState) (xs : List Int) (h : AnalyticsInv s) :
    AnalyticsInv (trackScrollDepthAll s xs) := by
  induction xs generalizing s with
  | nil => simpa [trackScrollDepthAll_nil] using h
  | cons x xs ih =>
    rw [trackScrollDepthAll_cons]
    exact ih _ (AnalyticsInv_step s x h)

theorem AnalyticsInv_initial : AnalyticsInv AnalyticsState.initial := by
  simp [AnalyticsInv, AnalyticsState.initial]

/-- C6: for every sequence of integer scroll-percentage samples, every emitted
`scroll_depth` event carries a percent in {25, 50, 75, 100}, no percent is emitted twice,
and the running maximum `maxScroll` never decreases from one processed prefix to a
longer one. -/
theorem scroll_depth_no_duplicates (samples : List Int) :
    (∀ p ∈ (trackScrollDepthAll AnalyticsState.initial samples).events,
        p = 25 ∨ p = 50 ∨ p = 75 ∨ p = 100) ∧
    (trackScrollDepthAll AnalyticsState.initial samples).events.Nodup ∧
    (∀ pre post, samples = pre ++ post →
        (trackScrollDepthAll AnalyticsState.initial pre).maxScroll ≤
          (trackScrollDepthAll AnalyticsState.initial samples).maxScroll) := by
  obtain ⟨_, hm, hp, _⟩ := AnalyticsInv_all _ samples AnalyticsInv_initial
  refine ⟨?_, ?_, ?_⟩
  · intro p hp'
    simpa [milestones] using hm p hp'
  · exact hp.imp (fun h => ne_of_lt h)
  · intro pre post h
    subst h
    rw [trackScrollDepthAll_append]
    exact trackScrollDepthAll_maxScroll_le _ _

theorem landsOn_iff (m : Int) (M : Int) (xs : List Int) :
    landsOn m M xs = true ↔ M < m ∧ ∃ a b, xs = a ++ m :: b ∧ ∀ x ∈ a, x < m := by
  induction xs generalizing M with
  | nil => simp [landsOn]
  | cons x xs ih =>
    unfold landsOn
    by_cases hx : x > M
    · by_cases hxm : x = m
      · subst hxm
        rw [if_pos hx, if_pos rfl]
        simp only [true_iff]
        exact ⟨hx, [], xs, rfl, by simp⟩
      · simp only [hx, hxm, if_true, if_false]
        rw [ih]
        constructor
        · rintro ⟨h1, a, b, rfl, h2⟩
          refine ⟨by omega, x :: a, b, rfl, ?_⟩
          intro y hy
          rcases List.mem_cons.mp hy with rfl | hy
          · exact h1
          · exact h2 y hy
        · rintro ⟨_, a, b, h1, h2⟩
          cases a with
          | nil =>
            simp only [List.nil_append, List.cons.injEq] at h1
            exact absurd h1.1 hxm
          | cons y a =>
            simp only [List.cons_append, List.cons.injEq] at h1
            obtain ⟨rfl, rfl⟩ := h1
            exact ⟨h2 x (List.mem_cons_self _ _), a, b, rfl,
              fun z hz => h2 z (List.mem_cons_of_mem _ hz)⟩
    · simp only [hx, if_false]
      rw [ih]
      constructor
      · rintro ⟨h1, a, b, rfl, h2⟩
        refine ⟨h1, x :: a, b, rfl, ?_⟩
        intro y hy
        rcases List.mem_cons.mp hy with rfl | hy
        · omega
        · exact h2 y hy
      · rintro ⟨h0, a, b, h1, h2⟩
        cases a with
        | nil =>
          simp only [List.nil_append, List.cons.injEq] at h1
          omega
        | cons y a =>
          simp only [List.cons_append, List.cons.injEq] at h1
          obtain ⟨rfl, rfl⟩ := h1
          exact ⟨h0, a, b, rfl, fun z hz => h2 z (List.mem_cons_of_mem _ hz)⟩

theorem tmod_of_milestone {m : Int} (hm : m ∈ milestones) :
    Int.tmod m 25 = 0 ∧ m ≤ 100 := by
  simp only [milestones, List.mem_cons, List.mem_singleton, List.not_mem_nil, or_false] at hm
  rcases hm with rfl | rfl | rfl | rfl <;> decide

/-- Number of events carrying milestone `m` after processing the samples `xs` from `s`. -/
theorem count_events_eq (m : Int) (hm : m ∈ milestones) (s : AnalyticsState) (xs : List Int) :
    (trackScrollDepthAll s xs).events.count m =
      s.events.count m + (if landsOn m s.maxScroll xs then 1 else 0) := by
  induction xs generalizing s with
  | nil => simp [trackScrollDepthAll_nil, landsOn]
  | cons x xs ih =>
    rw [trackScrollDepthAll_cons, ih, trackScrollDepth_eq]
    conv_rhs => unfold landsOn
    by_cases hx : x > s.maxScroll
    · by_cases hxm : x = m
      · subst hxm
        have hl : landsOn x x xs = false := by
          rw [Bool.eq_false_iff]
          intro h
          have := ((landsOn_iff x x xs).mp h).1
          omega
        simp [hx, tmod_of_milestone hm, hl, List.count_append]
      · have hne : (x == m) = false := by simpa using hxm
        by_cases hc : Int.tmod x 25 = 0 ∧ x ≤ 100
        · simp [hx, hxm, hc, List.count_append, List.count_cons, hne]
        · simp [hx, hxm, hc]
    · simp [hx]

/-- C7 (as amended): for every sequence of samples and every milestone `m`, at most one
`scroll_depth` event with percent `m` is emitted, and exactly one is emitted precisely
when some processed sample equals `m` and every sample processed before it is below `m`. -/
theorem scroll_depth_milestone_exact (samples : List Int) (m : Int) (hm : m ∈ milestones) :
    (trackScrollDepthAll AnalyticsState.initial samples).events.count m ≤ 1 ∧
    ((trackScrollDepthAll AnalyticsState.initial samples).events.count m = 1 ↔
      ∃ a b, samples = a ++ m :: b ∧ ∀ x ∈ a, x < m) := by
  have hpos : (0 : Int) < m := by
    simp only [milestones, List.mem_cons, List.mem_singleton, List.not_mem_nil, or_false] at hm
    omega
  rw [count_events_eq m hm]
  have h := landsOn_iff m 0 samples
  simp only [AnalyticsState.initial, List.count_nil, zero_add]
  constructor
  · split_ifs <;> omega
  · constructor
    · intro h1
      have h2 : landsOn m 0 samples = true := by
        by_contra hc
        simp [hc] at h1
      exact (h.mp h2).2
    · intro h1
      have h2 : landsOn m 0 samples = true := h.mpr ⟨hpos, h1⟩
      simp [h2]

/-- Witness for `scroll_depth_milestone_exact`: samples 10, 25, 30 and milestone 25. -/
theorem scroll_depth_milestone_exact_witness :
    (25 : Int) ∈ milestones ∧
    ((trackScrollDepthAll AnalyticsState.initial [10, 25, 30]).events.count 25 ≤ 1 ∧
    ((trackScrollDepthAll AnalyticsState.initial [10, 25, 30]).events.count 25 = 1 ↔
      ∃ a b, ([10, 25, 30] : List Int) = a ++ 25 :: b ∧ ∀ x ∈ a, x < 25)) :=
  ⟨by decide, scroll_depth_milestone_exact [10, 25, 30] 25 (by decide)⟩

/-- C7 (as stated) fails: the single sample 30 is at most 100 and reaches the milestone 25,
yet no `scroll_depth` event with percent 25 is emitted. -/
theorem scroll_depth_milestone_missed :
    (25 : Int) ∈ milestones ∧ (∀ x ∈ ([30] : List Int), x ≤ 100) ∧
    (∃ x ∈ ([30] : List Int), 25 ≤ x) ∧
    (trackScrollDepthAll AnalyticsState.initial [30]).events.count 25 = 0 ∧
    ¬ ((trackScrollDepthAll AnalyticsState.initial [30]).events.count 25 = 1) := by
  decide

/-! ### FAQ accordion -/

theorem getD_set_bool (l : List Bool) (i k : Nat) (b : Bool) :
    (l.set i b).getD k false = if k = i ∧ i < l.length then b else l.getD k false := by
  induction l generalizing i k with
  | nil => simp
  | cons x l ih =>
    cases i with
    | zero => cases k <;> simp
    | succ i =>
      cases k with
      | zero => simp
      | succ k => simpa using ih i k

theorem count_set_false_le (l : List Bool) (i : Nat) (h : l.getD i false = true) :
    (l.set i false).count true + 1 = l.count true := by
  induction l generalizing i with
  | nil => simp at h
  | cons x l ih =>
    cases i with
    | zero =>
      simp at h
      subst h
      simp
    | succ i =>
      simp at h
      have := ih i (by simpa using h)
      cases x <;> simp [List.count_cons] <;> omega

theorem count_le_one_others_closed (l : List Bool) (i : Nat) (h : l.count true ≤ 1)
    (hi : l.getD i false = true) : ∀ j, j ≠ i → l.getD j false = false := by
  induction l generalizing i with
  | nil => simp
  | cons x l ih =>
    intro j hj
    cases i with
    | zero =>
      simp at hi
      subst hi
      cases j with
      | zero => exact absurd rfl hj
      | succ j =>
        simp [List.count_cons] at h
        have hl : ∀ y ∈ l, y = false := by
          intro y hy
          cases y
          · rfl
          · exact absurd hy (List.count_eq_zero.mp (by simpa using h))
        simp only [List.getD_cons_succ]
        by_cases hjl : j < l.length
        · rw [List.getD_eq_getElem _ _ hjl]
          exact hl _ (List.getElem_mem _)
        · rw [List.getD_eq_default _ _ (by omega)]
    | succ i =>
      simp only [List.getD_cons_succ] at hi
      have hc : l.count true ≥ 1 := by
        by_cases hil : i < l.length
        · rw [List.getD_eq_getElem _ _ hil] at hi
          have : true ∈ l := hi ▸ List.getElem_mem _
          exact List.count_pos_iff.mpr this
        · rw [List.getD_eq_default _ _ (by omega)] at hi
          exact absurd hi (by decide)
      cases x with
      | true => simp [List.count_cons] at h; omega
      | false =>
        cases j with
        | zero => simp
        | succ j =>
          simp only [List.getD_cons_succ]
          exact ih i (by simpa [List.count_cons] using h) hi j (by omega)

theorem count_le_one_of_others_closed (l : List Bool) (i : Nat)
    (h : ∀ j, j ≠ i → l.getD j false = false) : l.count true ≤ 1 := by
  induction l generalizing i with
  | nil => simp
  | cons x l ih =>
    cases i with
    | zero =>
      have hl : l.count true = 0 := by
        rw [List.count_eq_zero]
        intro hmem
        obtain ⟨k, hk, hk'⟩ := List.getElem_of_mem hmem
        have := h (k + 1) (by omega)
        simp only [List.getD_cons_succ] at this
        rw [List.getD_eq_getElem _ _ hk, hk'] at this
        exact absurd this (by decide)
      cases x <;> simp [List.count_cons, hl]
    | succ i =>
      have hx : x = false := by simpa using h 0 (by omega)
      subst hx
      have := ih i (fun j hj => by simpa using h (j + 1) (by omega))
      simpa [List.count_cons] using this

theorem isOpen_setOpen (s : FaqState) (i k : Nat) (b : Bool) :
    (setOpen s i b).isOpen k =
      if k = i ∧ i < s.items.length then b else s.isOpen k := by
  unfold setOpen
  by_cases h : s.isOpen i = b
  · rw [if_pos h]
    split_ifs with hk
    · rw [hk.1]; exact h
    · rfl
  · rw [if_neg h]
    simp only [FaqState.isOpen]
    exact getD_set_bool _ _ _ _

theorem closeIfOther_isOpen (i j k : Nat) (acc : FaqState) :
    (closeIfOther i acc j).isOpen k = if k = j ∧ j ≠ i then false else acc.isOpen k := by
  unfold closeIfOther
  by_cases h : j ≠ i ∧ acc.isOpen j = true
  · rw [if_pos h, isOpen_setOpen]
    have hlen : j < acc.items.length := by
      by_contra hc
      have : acc.isOpen j = false := by
        unfold FaqState.isOpen
        rw [List.getD_eq_default _ _ (by omega)]
      rw [this] at h
      exact absurd h.2 (by decide)
    by_cases hk : k = j
    · simp [hk, hlen, h.1]
    · simp [hk]
  · rw [if_neg h]
    by_cases hk : k = j ∧ j ≠ i
    · rw [if_pos hk]
      obtain ⟨rfl, hji⟩ := hk
      cases hv : acc.isOpen k
      · rfl
      · exact absurd ⟨hji, hv⟩ h
    · rw [if_neg hk]

theorem closeIfOther_queue (i j : Nat) (acc : FaqState) :
    ∃ q, (closeIfOther i acc j).queue = acc.queue ++ q ∧ ∀ x ∈ q, x = j ∧ j ≠ i := by
  unfold closeIfOther
  by_cases h : j ≠ i ∧ acc.isOpen j = true
  · rw [if_pos h]
    unfold setOpen
    have hne : ¬ acc.isOpen j = false := by rw [h.2]; decide
    rw [if_neg hne]
    exact ⟨[j], rfl, by intro x hx; simp at hx; exact ⟨hx, h.1⟩⟩
  · rw [if_neg h]
    exact ⟨[], by simp, by simp⟩

theorem closeIfOther_budget (i j : Nat) (acc : FaqState) :
    toggleBudget (closeIfOther i acc j) ≤ toggleBudget acc := by
  unfold closeIfOther
  by_cases h : j ≠ i ∧ acc.isOpen j = true
  · rw [if_pos h]
    unfold setOpen
    have hne : ¬ acc.isOpen j = false := by rw [h.2]; decide
    rw [if_neg hne]
    have := count_set_false_le acc.items j h.2
    simp only [toggleBudget, List.length_append, List.length_singleton]
    omega
  · rw [if_neg h]

theorem foldl_closeIfOther (i : Nat) (js : List Nat) (acc : FaqState) :
    toggleBudget (js.foldl (closeIfOther i) acc) ≤ toggleBudget acc ∧
    (∀ k, (js.foldl (closeIfOther i) acc).isOpen k =
        if k ∈ js ∧ k ≠ i then false else acc.isOpen k) ∧
    ∃ q, (js.foldl (closeIfOther i) acc).queue = acc.queue ++ q ∧
        ∀ x ∈ q, x ∈ js ∧ x ≠ i := by
  induction js generalizing acc with
  | nil => exact ⟨le_refl _, by simp, [], by simp, by simp⟩
  | cons j js ih =>
    rw [List.foldl_cons]
    obtain ⟨h1, h2, q, h3, h4⟩ := ih (closeIfOther i acc j)
    obtain ⟨q0, h5, h6⟩ := closeIfOther_queue i j acc
    refine ⟨le_trans h1 (closeIfOther_budget i j acc), ?_, q0 ++ q, ?_, ?_⟩
    · intro k
      rw [h2 k, closeIfOther_isOpen]
      by_cases hk : k ≠ i
      · by_cases hkj : k = j
        · subst hkj; simp [hk]
        · simp [hk, hkj]
      · have hki : k = i := not_not.mp hk
        subst hki
        simp only [ne_eq, not_true_eq_false, and_false, if_false]
        split_ifs with hc
        · exact absurd hc.1.symm hc.2
        · rfl
    · rw [h3, h5, List.append_assoc]
    · intro x hx
      rcases List.mem_append.mp hx with hx | hx
      · obtain ⟨rfl, hji⟩ := h6 x hx
        exact ⟨List.mem_cons_self _ _, hji⟩
      · exact ⟨List.mem_cons_of_mem _ (h4 x hx).1, (h4 x hx).2⟩

theorem toggleHandler_budget (i : Nat) (s : FaqState) :
    toggleBudget (toggleHandler i s) ≤ toggleBudget s := by
  unfold toggleHandler
  split_ifs
  · exact (foldl_closeIfOther i _ s).1
  · exact le_refl _

/-- With fuel at least the budget, every queued `toggle` event gets dispatched. -/
theorem dispatchToggles_queue (fuel : Nat) (s : FaqState) (h : toggleBudget s ≤ fuel) :
    (dispatchToggles fuel s).queue = [] := by
  induction fuel generalizing s with
  | zero =>
    simp only [toggleBudget] at h
    have : s.queue.length = 0 := by omega
    simpa [dispatchToggles] using this
  | succ fuel ih =>
    unfold dispatchToggles
    cases hq : s.queue with
    | nil => simpa using hq
    | cons i rest =>
      simp only
      apply ih
      refine le_trans (toggleHandler_budget i _) ?_
      simp only [toggleBudget, hq, List.length_cons] at h ⊢
      omega

/-- Handlers of items that are closed change nothing. -/
theorem dispatchToggles_items (fuel : Nat) (s : FaqState)
    (h : ∀ j ∈ s.queue, s.isOpen j = false) : (dispatchToggles fuel s).items = s.items := by
  induction fuel generalizing s with
  | zero => rfl
  | succ fuel ih =>
    unfold dispatchToggles
    cases hq : s.queue with
    | nil => rfl
    | cons i rest =>
      simp only
      have hi : s.isOpen i = false := h i (by rw [hq]; exact List.mem_cons_self _ _)
      have hh : toggleHandler i { s with queue := rest } = { s with queue := rest } := by
        unfold toggleHandler
        have : ({ s with queue := rest } : FaqState).isOpen i = false := hi
        rw [this]
        simp
      rw [hh, ih]
      intro j hj
      exact h j (by rw [hq]; exact List.mem_cons_of_mem _ hj)

theorem settleToggles_queue (s : FaqState) : (settleToggles s).queue = [] :=
  dispatchToggles_queue _ s (le_refl _)

theorem dispatchToggles_nil (fuel : Nat) (s : FaqState) (h : s.queue = []) :
    dispatchToggles fuel s = s := by
  cases fuel with
  | zero => rfl
  | succ fuel => simp [dispatchToggles, h]

theorem isOpen_of_length_le (s : FaqState) (k : Nat) (h : s.items.length ≤ k) :
    s.isOpen k = false := by
  unfold FaqState.isOpen
  rw [List.getD_eq_default _ _ h]

/-- Opening a closed item and running the handlers leaves exactly that item open. -/
theorem open_closed_item (s : FaqState) (i : Nat) (hq : s.queue = [])
    (hi : i < s.items.length) (hc : s.isOpen i = false) :
    (settleToggles (setOpen s i true)).isOpen i = true ∧
      ∀ j, j ≠ i → (settleToggles (setOpen s i true)).isOpen j = false := by
  have hs1 : setOpen s i true = { items := s.items.set i true, queue := [i] } := by
    unfold setOpen
    rw [if_neg (by rw [hc]; decide), hq]
    rfl
  rw [hs1]
  have hopen : ∀ k, (FaqState.mk (s.items.set i true) []).isOpen k =
      if k = i then true else s.isOpen k := by
    intro k
    simp only [FaqState.isOpen]
    rw [getD_set_bool]
    simp [hi]
  have hbud : toggleBudget { items := s.items.set i true, queue := [i] } =
      2 * (s.items.set i true).count true + 1 := rfl
  unfold settleToggles
  rw [hbud]
  unfold dispatchToggles
  simp only
  have hh : toggleHandler i { items := s.items.set i true, queue := [] } =
      (List.range (s.items.set i true).length).foldl (closeIfOther i)
        { items := s.items.set i true, queue := [] } := by
    unfold toggleHandler
    rw [if_pos (by rw [hopen]; simp)]
  rw [hh]
  obtain ⟨_, h2, q, h3, h4⟩ := foldl_closeIfOther i (List.range (s.items.set i true).length)
    { items := s.items.set i true, queue := [] }
  have h5 := dispatchToggles_items (2 * (s.items.set i true).count true) _ (by
    intro j hj
    rw [h3] at hj
    simp only [List.nil_append] at hj
    rw [h2, if_pos (h4 j hj)])
  have key : ∀ k, (dispatchToggles (2 * (s.items.set i true).count true)
      ((List.range (s.items.set i true).length).foldl (closeIfOther i)
        { items := s.items.set i true, queue := [] })).isOpen k =
      if k ∈ List.range (s.items.set i true).length ∧ k ≠ i then false
      else (FaqState.mk (s.items.set i true) []).isOpen k := by
    intro k
    rw [← h2 k]
    simp only [FaqState.isOpen, h5]
  constructor
  · rw [key, hopen]
    simp
  · intro j hj
    rw [key, hopen]
    by_cases hjl : j < s.items.length
    · simp [hjl, hj]
    · have := isOpen_of_length_le s j (by omega)
      simp [hjl, hj, this]

/-- One user action preserves "no pending toggle event and at most one open item". -/
theorem faqStep_preserves (s : FaqState) (a : FaqAction) (hq : s.queue = [])
    (h1 : atMostOneOpen s) :
    (faqStep s a).queue = [] ∧ atMostOneOpen (faqStep s a) := by
  cases a with
  | openItem i =>
    refine ⟨settleToggles_queue _, ?_⟩
    simp only [faqStep]
    by_cases hc : s.isOpen i = true
    · have : setOpen s i true = s := by unfold setOpen; rw [if_pos hc]
      rw [this]
      unfold settleToggles
      rw [dispatchToggles_nil _ _ hq]
      exact h1
    · have hc' : s.isOpen i = false := by simpa using hc
      by_cases hi : i < s.items.length
      · exact count_le_one_of_others_closed _ i (open_closed_item s i hq hi hc').2
      · have hs1 : setOpen s i true = { items := s.items, queue := [i] } := by
          unfold setOpen
          rw [if_neg (by rw [hc']; decide), hq]
          simp [List.set_eq_of_length_le (not_lt.mp hi)]
        rw [hs1]
        unfold settleToggles atMostOneOpen
        rw [dispatchToggles_items _ _ (by
          intro j hj
          simp only [List.mem_singleton] at hj
          subst hj
          exact hc')]
        exact h1
  | closeItem i =>
    refine ⟨settleToggles_queue _, ?_⟩
    simp only [faqStep]
    by_cases hc : s.isOpen i = false
    · have : setOpen s i false = s := by unfold setOpen; rw [if_pos hc]
      rw [this]
      unfold settleToggles
      rw [dispatchToggles_nil _ _ hq]
      exact h1
    · have hc' : s.isOpen i = true := by simpa using hc
      have hs1 : setOpen s i false = { items := s.items.set i false, queue := [i] } := by
        unfold setOpen
        rw [if_neg hc, hq]
        rfl
      have hlen : i < s.items.length := by
        by_contra hl
        rw [isOpen_of_length_le s i (by omega)] at hc'
        exact absurd hc' (by decide)
      rw [hs1]
      unfold settleToggles atMostOneOpen
      rw [dispatchToggles_items _ _ (by
        intro j hj
        simp only [List.mem_singleton] at hj
        subst hj
        simp only [FaqState.isOpen]
        rw [getD_set_bool]
        simp [hlen])]
      have := count_set_false_le s.items i hc'
      unfold atMostOneOpen at h1
      simp only
      omega

theorem faqSteps_preserve (s : FaqState) (acts : List FaqAction) (hq : s.queue = [])
    (h1 : atMostOneOpen s) :
    (acts.foldl faqStep s).queue = [] ∧ atMostOneOpen (acts.foldl faqStep s) := by
  induction acts generalizing s with
  | nil => exact ⟨hq, h1⟩
  | cons a acts ih =>
    rw [List.foldl_cons]
    exact ih _ (faqStep_preserves s a hq h1).1 (faqStep_preserves s a hq h1).2

/-- C5: in a group with no pending toggle event and at most one open item, after the user
opens item `i` and the toggle handlers have run, item `i` is open and every other item is
closed; and after any sequence of open/close actions, each followed by its toggle
handlers, no toggle event is pending and at most one item is open. -/
theorem faq_single_expansion (s : FaqState) (hq : s.queue = []) (h1 : atMostOneOpen s) :
    (∀ i, i < s.items.length →
      (faqStep s (.openItem i)).queue = [] ∧
      (faqStep s (.openItem i)).isOpen i = true ∧
      ∀ j, j ≠ i → (faqStep s (.openItem i)).isOpen j = false) ∧
    (∀ acts : List FaqAction,
      (acts.foldl faqStep s).queue = [] ∧ atMostOneOpen (acts.foldl faqStep s)) := by
  refine ⟨?_, fun acts => faqSteps_preserve s acts hq h1⟩
  intro i hi
  refine ⟨settleToggles_queue _, ?_⟩
  simp only [faqStep]
  by_cases hc : s.isOpen i = true
  · have : setOpen s i true = s := by unfold setOpen; rw [if_pos hc]
    rw [this]
    unfold settleToggles
    rw [dispatchToggles_nil _ _ hq]
    exact ⟨hc, count_le_one_others_closed s.items i h1 hc⟩
  · exact open_closed_item s i hq hi (by simpa using hc)

/-- Witness for `faq_single_expansion`: three items with the first one open. -/
theorem faq_single_expansion_witness :
    (FaqState.mk [true, false, false] []).queue = [] ∧
    atMostOneOpen (FaqState.mk [true, false, false] []) ∧
    ((∀ i, i < (FaqState.mk [true, false, false] []).items.length →
      (faqStep (FaqState.mk [true, false, false] []) (.openItem i)).queue = [] ∧
      (faqStep (FaqState.mk [true, false, false] []) (.openItem i)).isOpen i = true ∧
      ∀ j, j ≠ i → (faqStep (FaqState.mk [true, false, false] []) (.openItem i)).isOpen j
        = false) ∧
    (∀ acts : List FaqAction,
      (acts.foldl faqStep (FaqState.mk [true, false, false] [])).queue = [] ∧
      atMostOneOpen (acts.foldl faqStep (FaqState.mk [true, false, false] [])))) :=
  ⟨rfl, by decide, faq_single_expansion (FaqState.mk [true, false, false] []) rfl (by decide)⟩

/-- The accordion scenario of the specification: with A open, opening B gives A closed and
B open; opening C next gives B closed, C open and A still closed. -/
theorem faq_scenario :
    (faqStep (FaqState.mk [true, false, false] []) (.openItem 1)).items
      = [false, true, false] ∧
    ([FaqAction.openItem 1, FaqAction.openItem 2].foldl faqStep
      (FaqState.mk [true, false, false] [])).items = [false, false, true] := by
  decide

end Script
